import Mathlib

/-!
Verification of the ekos-session-analyzer event-log parsing and aggregation
engine.  The Python sources (realtime_parser.py, ekos_analyzer.py,
realtime_monitor.py) are shallowly embedded: strings are Lean strings
(processed through their character lists), Python floats are modelled as
exact rationals, fallible parses return Option, and the mutable parser
objects become explicit state records threaded through the line handlers.
Presentation-only derived strings (clock_time, message texts) are pure
formatting of the numeric fields already present in each event and are not
modelled.
-/

/-! ## Python string primitives -/

/-- Whitespace characters removed by Python str.strip(). -/
def isPySpace (c : Char) : Bool :=
  c = ' ' || c = '\t' || c = '\n' || c = '\r' || c = Char.ofNat 11 || c = Char.ofNat 12

/-- Strip leading and trailing whitespace from a character list. -/
def pystripL (l : List Char) : List Char :=
  ((l.dropWhile isPySpace).reverse.dropWhile isPySpace).reverse

/-- Python str.strip() with no arguments. -/
def pystrip (s : String) : String := ⟨pystripL s.data⟩

/-- Split a character list at every character satisfying p, keeping empty
tokens (the semantics of Python str.split with an explicit separator). -/
def splitPAux (p : Char → Bool) : List Char → List Char → List (List Char)
  | [], acc => [acc.reverse]
  | c :: cs, acc =>
    if p c then acc.reverse :: splitPAux p cs []
    else splitPAux p cs (c :: acc)

/-- Python s.split(sep) for a single-character separator. -/
def splitCh (sep : Char) (s : String) : List String :=
  (splitPAux (fun c => c = sep) s.data []).map (fun cs => ⟨cs⟩)

/-- Python s.split() (split on whitespace runs, dropping empty tokens). -/
def splitWs (s : String) : List String :=
  ((splitPAux isPySpace s.data []).filter (fun cs => ¬ cs.isEmpty)).map (fun cs => ⟨cs⟩)

/-- Does pat occur as a contiguous sublist of l (Python substring test)? -/
def containsSubL (pat : List Char) : List Char → Bool
  | [] => pat.isEmpty
  | c :: cs => pat.isPrefixOf (c :: cs) || containsSubL pat cs

/-- Python (pat in s) substring containment. -/
def containsSub (pat s : String) : Bool := containsSubL pat.data s.data

/-- Fuel-driven worker for splitting on a multi-character separator with
Python non-overlapping left-to-right semantics. -/
def splitSubF (pat : List Char) : Nat → List Char → List Char → List (List Char)
  | 0, l, acc => [acc.reverse ++ l]
  | _ + 1, [], acc => [acc.reverse]
  | fuel + 1, c :: cs, acc =>
    if pat.isPrefixOf (c :: cs) then
      acc.reverse :: splitSubF pat fuel ((c :: cs).drop pat.length) []
    else
      splitSubF pat fuel cs (c :: acc)

/-- Python s.split(pat) for a multi-character separator (pat nonempty in all
uses; an empty pat returns the whole string unsplit). -/
def splitSub (pat s : String) : List String :=
  match pat.data with
  | [] => [s]
  | _ :: _ => (splitSubF pat.data (s.data.length + 1) s.data []).map (fun cs => ⟨cs⟩)

/-- Python s.split(pat)[-1]: the text after the last separator occurrence. -/
def afterLastSub (pat s : String) : String :=
  (splitSub pat s).getLastD s

/-- Replace every occurrence of one character by another. -/
def replaceCh (a b : Char) (s : String) : String :=
  ⟨s.data.map (fun c => if c = a then b else c)⟩

/-- Join strings with a single separator string between them. -/
def joinWith (sep : String) : List String → String
  | [] => ""
  | [x] => x
  | x :: y :: rest => x ++ sep ++ joinWith sep (y :: rest)

/-! ## Python numeric parsing (float and int over exact rationals) -/

/-- Value of a decimal digit character (the code points 48..57). -/
def digitVal (c : Char) : Nat :=
  if c = '0' then 0 else if c = '1' then 1 else if c = '2' then 2 else if c = '3' then 3
  else if c = '4' then 4 else if c = '5' then 5 else if c = '6' then 6 else if c = '7' then 7
  else if c = '8' then 8 else if c = '9' then 9 else 0

/-- Numeric value of a digit list (most significant first). -/
def natOfDigits (l : List Char) : Nat :=
  l.foldl (fun n c => 10 * n + digitVal c) 0

/-- Parse the exponent suffix of a float literal and scale the mantissa. -/
def parseExpPart (mant : ℚ) : List Char → Option ℚ
  | [] => some mant
  | e :: r =>
    if e = 'e' || e = 'E' then
      let signed : Bool × List Char :=
        match r with
        | '+' :: r2 => (false, r2)
        | '-' :: r2 => (true, r2)
        | r2 => (false, r2)
      let ds := signed.2.takeWhile Char.isDigit
      if ds.isEmpty ∨ ¬ (signed.2.drop ds.length).isEmpty then none
      else
        let ex : ℤ := if signed.1 then -(natOfDigits ds : ℤ) else (natOfDigits ds : ℤ)
        some (mant * (10 : ℚ) ^ ex)
    else none

/-- Parse an unsigned float body: digits, optional fraction, optional
exponent.  Fails when no digit is present or trailing text remains. -/
def parseFloatCore (l : List Char) : Option ℚ :=
  let ip := l.takeWhile Char.isDigit
  let r1 := l.drop ip.length
  match r1 with
  | '.' :: r2 =>
    let fp := r2.takeWhile Char.isDigit
    let r3 := r2.drop fp.length
    if ip.isEmpty ∧ fp.isEmpty then none
    else
      parseExpPart ((natOfDigits ip : ℚ) + (natOfDigits fp : ℚ) / (10 : ℚ) ^ fp.length) r3
  | _ =>
    if ip.isEmpty then none else parseExpPart (natOfDigits ip : ℚ) r1

/-- Python float(s) (modelled over the sign/digits/fraction/exponent core of
the literal grammar, as exact rationals). -/
def pyFloat (s : String) : Option ℚ :=
  match pystripL s.data with
  | '+' :: r => parseFloatCore r
  | '-' :: r => (parseFloatCore r).map (fun q => -q)
  | r => parseFloatCore r

/-- Python int(s): optional sign followed by decimal digits only. -/
def pyInt (s : String) : Option ℤ :=
  let core : List Char → Option ℤ := fun l =>
    if l.isEmpty ∨ ¬ l.all Char.isDigit then none else some (natOfDigits l : ℤ)
  match pystripL s.data with
  | '+' :: r => core r
  | '-' :: r => (core r).map (fun z => -z)
  | r => core r

/-- Python truthiness of an optional float (None and 0.0 are falsy). -/
def truthyQ : Option ℚ → Bool
  | none => false
  | some q => q ≠ 0


/-! ## Real-time parser embedding (realtime_parser.py, RealtimeAnalyzeParser)

The mutable parser object becomes the explicit state record RTState; the
constructor arguments become RTConfig.  The session_start datetime object
is used by the source only to format the presentation-only clock_time
strings and is therefore not carried in the state. -/

/-- Constructor parameters of RealtimeAnalyzeParser. -/
structure RTConfig where
  guideLostThreshold : ℚ := 30
  reacquireAlertCount : Nat := 5
  reacquireAlertWindow : ℚ := 300

/-- The mutable fields set by RealtimeAnalyzeParser.reset(). -/
structure RTState where
  sessionStartTime : Option String := none
  sessionTimezone : String := ""
  captureStartedTime : Option ℚ := none
  captureStartedFilter : String := ""
  captureStartedExposure : ℚ := 0
  afStartedTime : Option ℚ := none
  afStartedFilter : String := ""
  afStartedTemp : ℚ := 0
  lastGuideState : String := ""
  lastGuideStateTime : ℚ := 0
  guidingActive : Bool := false
  guideLostTime : Option ℚ := none
  guideLostAlerted : Bool := false
  reacquireTimes : List ℚ := []
  reacquireAlertedAt : ℚ := 0
  alignInProgress : Bool := false
  alignStartedTime : Option ℚ := none
  mountParking : Bool := false
  currentJob : String := ""
deriving DecidableEq, Repr

/-- The state produced by reset(). -/
def initRT : RTState := {}

/-- Structured events emitted by the realtime parser (the dicts returned by
the handlers; the guide_problem subtypes are separate constructors). -/
inductive RTEvent where
  | sessionStart (startTime timezone : String)
  | captureComplete (time exposure : ℚ) (filterName : String) (hfr : ℚ) (filename : String)
      (numStars median : ℤ) (eccentricity duration : ℚ) (objectName : String)
  | captureAborted (time exposure : ℚ) (filterName objectName : String)
  | autofocusComplete (time : ℚ) (filterName : String) (temperature duration : ℚ)
      (position rSquared solutionInfo : String)
  | autofocusAborted (time : ℚ) (filterName : String) (duration : ℚ)
  | guideRecovered (time duration : ℚ)
  | guideFrequentReacquire (time : ℚ) (count : Nat) (window : ℚ)
  | guideLost (time duration : ℚ)
  | mountParking (time : ℚ) (state : String)
  | schedulerJobStart (time : ℚ) (jobName : String)
  | schedulerJobEnd (time : ℚ) (jobName reason : String)
  | alignComplete (time duration : ℚ)
  | alignFailed (time duration : ℚ) (state : String)
  | meridianFlip (time : ℚ) (state : String)
deriving DecidableEq, Repr

/-- Scan of _extract_object_from_filename: first path component equal to
Pictures that is followed by another component. -/
def picturesScan : List String → Option String
  | [] => none
  | p :: rest =>
    if p = "Pictures" ∧ rest.length > 0 then some (replaceCh '_' ' ' (rest.headD ""))
    else picturesScan rest

/-- Scan of _extract_object_from_filename over basename tokens: skip until a
token starting with 20 or 19, then collect tokens until Light. -/
def objScan (foundDate : Bool) (acc : List String) : List String → List String
  | [] => acc.reverse
  | p :: rest =>
    if ¬ foundDate ∧ (("20".data).isPrefixOf p.data ∨ ("19".data).isPrefixOf p.data) then
      objScan true acc rest
    else if foundDate ∧ p = "Light" then acc.reverse
    else if foundDate then objScan foundDate (p :: acc) rest
    else objScan foundDate acc rest

/-- RealtimeAnalyzeParser._extract_object_from_filename. -/
def extractObjectFromFilename (filename : String) : String :=
  if filename = "" then ""
  else
    let parts := splitCh '/' (replaceCh '\\' '/' filename)
    match picturesScan parts with
    | some obj => obj
    | none =>
      let basename := parts.getLastD filename
      let nameParts := splitCh '_' basename
      if nameParts.length > 2 then
        let objParts := objScan false [] nameParts
        if objParts ≠ [] then joinWith " " objParts else ""
      else ""

/-- RealtimeAnalyzeParser._handle_session_start. -/
def handleSessionStart (s : RTState) (timeStr timezone : String) : RTState × List RTEvent :=
  ({s with sessionStartTime := some timeStr, sessionTimezone := timezone},
   [RTEvent.sessionStart timeStr timezone])

/-- RealtimeAnalyzeParser._handle_capture_starting.  The started time is
assigned before the exposure parse, so a failing exposure float leaves the
time set but exposure and filter untouched. -/
def handleCaptureStarting (s : RTState) (time : ℚ) (parts : List String) :
    RTState × List RTEvent :=
  let s1 := {s with captureStartedTime := some time}
  match pyFloat (parts.getD 2 "") with
  | some e =>
    ({s1 with captureStartedExposure := e, captureStartedFilter := pystrip (parts.getD 3 "")}, [])
  | none => (s1, [])

/-- RealtimeAnalyzeParser._handle_capture_complete.  Any field parse failure
is caught and yields no event and no state change; note the Python
truthiness test on the pending start time (a pending start at offset 0.0 is
treated as absent and the duration falls back to the exposure). -/
def handleCaptureComplete (s : RTState) (time : ℚ) (parts : List String) :
    RTState × List RTEvent :=
  match pyFloat (parts.getD 2 ""), pyFloat (parts.getD 4 ""),
        (if parts.length > 6 then pyInt (parts.getD 6 "") else some 0),
        (if parts.length > 7 then pyInt (parts.getD 7 "") else some 0),
        (if parts.length > 8 then pyFloat (parts.getD 8 "") else some 0) with
  | some exposure, some hfr, some numStars, some median, some ecc =>
    let filterName := pystrip (parts.getD 3 "")
    let filename := pystrip (parts.getD 5 "")
    let duration := match s.captureStartedTime with
      | some t0 => if t0 ≠ 0 then time - t0 else exposure
      | none => exposure
    let objectName := extractObjectFromFilename filename
    ({s with captureStartedTime := none},
     [RTEvent.captureComplete time exposure filterName hfr filename numStars median ecc duration
        (if objectName ≠ "" then objectName else s.currentJob)])
  | _, _, _, _, _ => (s, [])

/-- RealtimeAnalyzeParser._handle_capture_aborted. -/
def handleCaptureAborted (s : RTState) (time : ℚ) (parts : List String) :
    RTState × List RTEvent :=
  match pyFloat (parts.getD 2 "") with
  | some exposure =>
    ({s with captureStartedTime := none},
     [RTEvent.captureAborted time exposure s.captureStartedFilter s.currentJob])
  | none => (s, [])

/-- RealtimeAnalyzeParser._handle_af_starting; time and filter are assigned
before the temperature parse. -/
def handleAfStarting (s : RTState) (time : ℚ) (parts : List String) :
    RTState × List RTEvent :=
  let s1 := {s with afStartedTime := some time, afStartedFilter := pystrip (parts.getD 2 "")}
  match pyFloat (parts.getD 3 "") with
  | some temp => ({s1 with afStartedTemp := temp}, [])
  | none => (s1, [])

/-- RealtimeAnalyzeParser._handle_af_complete.  Returns no event when no
autofocus start is pending; otherwise extracts the solution fields from the
reassembled line text. -/
def handleAfComplete (s : RTState) (time : ℚ) (parts : List String) :
    RTState × List RTEvent :=
  match s.afStartedTime with
  | none => (s, [])
  | some t0 =>
    let duration := time - t0
    let filterName := s.afStartedFilter
    let fullLine := joinWith "," parts
    let solTriple : String × String × String :=
      if containsSub "Solution:" fullLine then
        let solPart := pystrip (afterLastSub "Solution:" fullLine)
        match splitWs solPart with
        | [] => ("", "", "")
        | w :: _ =>
          let rs := if containsSub "R²=" solPart then pystrip (afterLastSub "R²=" solPart) else ""
          (w, rs, pystrip solPart)
      else ("", "", "")
    let temperature := match pyFloat (parts.getD 2 "") with
      | some v => v
      | none => s.afStartedTemp
    ({s with afStartedTime := none},
     [RTEvent.autofocusComplete time filterName temperature duration
        solTriple.1 solTriple.2.1 solTriple.2.2])

/-- RealtimeAnalyzeParser._handle_af_aborted; the Python truthiness test
makes a pending start at offset 0.0 fall back to duration 0. -/
def handleAfAborted (s : RTState) (time : ℚ) : RTState × List RTEvent :=
  let duration := match s.afStartedTime with
    | some t0 => if t0 ≠ 0 then time - t0 else 0
    | none => 0
  ({s with afStartedTime := none},
   [RTEvent.autofocusAborted time s.afStartedFilter duration])

/-- RealtimeAnalyzeParser._handle_guide_state. -/
def handleGuideState (cfg : RTConfig) (s : RTState) (time : ℚ) (state : String) :
    RTState × List RTEvent :=
  let s := {s with lastGuideState := state, lastGuideStateTime := time}
  if state = "Guiding" then
    let evs := match s.guideLostTime with
      | some lt => if s.guideLostAlerted then [RTEvent.guideRecovered time (time - lt)] else []
      | none => []
    ({s with guidingActive := true, guideLostTime := none, guideLostAlerted := false}, evs)
  else if state = "Reacquiring" then
    let times := (s.reacquireTimes ++ [time]).filter
      (fun t => t > time - cfg.reacquireAlertWindow)
    if times.length ≥ cfg.reacquireAlertCount ∧
        time - s.reacquireAlertedAt > cfg.reacquireAlertWindow then
      ({s with reacquireTimes := times, reacquireAlertedAt := time},
       [RTEvent.guideFrequentReacquire time times.length cfg.reacquireAlertWindow])
    else
      ({s with reacquireTimes := times}, [])
  else if state = "Aborted" ∨ state = "Idle" then
    let s := if s.guidingActive ∧ s.guideLostTime = none then
        {s with guideLostTime := some time, guidingActive := false}
      else s
    match s.guideLostTime with
    | some lt =>
      if ¬ s.guideLostAlerted ∧ time - lt ≥ cfg.guideLostThreshold then
        ({s with guideLostAlerted := true}, [RTEvent.guideLost time (time - lt)])
      else (s, [])
    | none => (s, [])
  else (s, [])

/-- RealtimeAnalyzeParser._handle_mount_state. -/
def handleMountState (s : RTState) (time : ℚ) (state : String) : RTState × List RTEvent :=
  if state = "Parking" then
    if ¬ s.mountParking then
      ({s with mountParking := true}, [RTEvent.mountParking time "Parking"])
    else (s, [])
  else if state = "Parked" ∨ state = "Idle" then
    if s.mountParking then
      ({s with mountParking := false},
       if state = "Parked" then [RTEvent.mountParking time "Parked"] else [])
    else (s, [])
  else ({s with mountParking := false}, [])

/-- RealtimeAnalyzeParser._handle_scheduler_start. -/
def handleSchedulerStart (s : RTState) (time : ℚ) (jobName : String) : RTState × List RTEvent :=
  ({s with currentJob := jobName}, [RTEvent.schedulerJobStart time jobName])

/-- RealtimeAnalyzeParser._handle_scheduler_end. -/
def handleSchedulerEnd (s : RTState) (time : ℚ) (jobName reason : String) :
    RTState × List RTEvent :=
  ({s with currentJob := ""}, [RTEvent.schedulerJobEnd time jobName reason])

/-- RealtimeAnalyzeParser._handle_align_state. -/
def handleAlignState (s : RTState) (time : ℚ) (state : String) : RTState × List RTEvent :=
  if state = "In Progress" then
    if ¬ s.alignInProgress then
      ({s with alignInProgress := true, alignStartedTime := some time}, [])
    else (s, [])
  else if state = "Complete" then
    if s.alignInProgress then
      let duration := match s.alignStartedTime with
        | some t0 => if t0 ≠ 0 then time - t0 else 0
        | none => 0
      ({s with alignInProgress := false, alignStartedTime := none},
       [RTEvent.alignComplete time duration])
    else (s, [])
  else if state = "Failed" ∨ state = "Aborted" then
    if s.alignInProgress then
      let duration := match s.alignStartedTime with
        | some t0 => if t0 ≠ 0 then time - t0 else 0
        | none => 0
      ({s with alignInProgress := false, alignStartedTime := none},
       [RTEvent.alignFailed time duration state])
    else (s, [])
  else (s, [])

/-- RealtimeAnalyzeParser._handle_meridian_flip. -/
def handleMeridianFlip (s : RTState) (time : ℚ) (state : String) : RTState × List RTEvent :=
  if state = "MOUNT_FLIP_RUNNING" ∨ state = "MOUNT_FLIP_COMPLETED" ∨ state = "MOUNT_FLIP_ERROR" then
    (s, [RTEvent.meridianFlip time state])
  else (s, [])

/-- RealtimeAnalyzeParser._process_line: strip, comment and field-count
checks, the AnalyzeStartTime special case, the numeric-offset parse, then
dispatch on the command tag with its arity guard. -/
def processLine (cfg : RTConfig) (s : RTState) (line : String) : RTState × List RTEvent :=
  let line := pystrip line
  if line = "" ∨ line.data.head? = some '#' then (s, [])
  else
    let parts := splitCh ',' line
    if parts.length < 2 then (s, [])
    else
      let command := parts.getD 0 ""
      if command = "AnalyzeStartTime" ∧ parts.length ≥ 3 then
        handleSessionStart s (pystrip (parts.getD 1 "")) (pystrip (parts.getD 2 ""))
      else
        match pyFloat (parts.getD 1 "") with
        | none => (s, [])
        | some t =>
          if command = "CaptureStarting" ∧ parts.length ≥ 4 then
            handleCaptureStarting s t parts
          else if command = "CaptureComplete" ∧ parts.length ≥ 6 then
            handleCaptureComplete s t parts
          else if command = "CaptureAborted" ∧ parts.length ≥ 3 then
            handleCaptureAborted s t parts
          else if command = "AutofocusStarting" ∧ parts.length ≥ 4 then
            handleAfStarting s t parts
          else if command = "AutofocusComplete" ∧ parts.length ≥ 4 then
            handleAfComplete s t parts
          else if command = "AutofocusAborted" ∧ parts.length ≥ 4 then
            handleAfAborted s t
          else if command = "GuideState" ∧ parts.length ≥ 3 then
            handleGuideState cfg s t (pystrip (parts.getD 2 ""))
          else if command = "MountState" ∧ parts.length ≥ 3 then
            handleMountState s t (pystrip (parts.getD 2 ""))
          else if command = "SchedulerJobStart" ∧ parts.length ≥ 3 then
            handleSchedulerStart s t (pystrip (parts.getD 2 ""))
          else if command = "SchedulerJobEnd" ∧ parts.length ≥ 4 then
            handleSchedulerEnd s t (pystrip (parts.getD 2 ""))
              (if parts.length > 3 then pystrip (parts.getD 3 "") else "")
          else if command = "AlignState" ∧ parts.length ≥ 3 then
            handleAlignState s t (pystrip (parts.getD 2 ""))
          else if command = "MeridianFlipState" ∧ parts.length ≥ 3 then
            handleMeridianFlip s t (pystrip (parts.getD 2 ""))
          else (s, [])

/-- RealtimeAnalyzeParser.process_lines: fold the single-line decoder over
the lines, concatenating the emitted events. -/
def processLines (cfg : RTConfig) (s : RTState) : List String → RTState × List RTEvent
  | [] => (s, [])
  | l :: ls =>
    let r1 := processLine cfg s l
    let r2 := processLines cfg r1.1 ls
    (r2.1, r1.2 ++ r2.2)

/-! ## Batch analyzer embedding (ekos_analyzer.py, EkosAnalyzer)

The per-file session_data dictionary becomes SessionData; the heterogeneous
event dicts become structures whose keys absent in a given dict variant are
modelled as Option fields defaulting to none.  An uncaught exception inside
the parse loop aborts the loop and returns the data accumulated so far,
modelled by parseStep returning none. -/

/-- One accepted autofocus HFR measurement (the dicts appended to
hfr_values: position, hfr, weight). -/
structure HFRSample where
  position : ℤ
  hfr : ℚ
  weight : ℚ
deriving DecidableEq, Repr

/-- A captures-list entry; event is the starting or complete marker. -/
structure BCapture where
  timestamp : ℚ
  event : String
  exposure : ℚ
  filterName : String
  hfr : Option ℚ := none
  fwhm : Option ℚ := none
  stars : Option ℤ := none
  filepath : Option String := none
deriving DecidableEq, Repr

/-- An autofocus_sessions entry (starting entries leave the completion-only
fields at their defaults). -/
structure BAutofocus where
  timestamp : ℚ
  event : String
  filterName : String
  temperature : ℚ
  step : ℤ := 0
  solution : Option String := none
  hfrDataRaw : Option String := none
  hfrValues : List HFRSample := []
  bestHfr : Option ℚ := none
  focusPosition : Option ℤ := none
deriving DecidableEq, Repr

/-- A guide_stats entry. -/
structure GuideStat where
  timestamp : ℚ
  dx : ℚ
  dy : ℚ
  pulseRa : ℤ
  pulseDec : ℤ
  distance : ℚ
  rms : ℚ
  snr : ℚ
deriving DecidableEq, Repr

/-- A scheduler_jobs entry. -/
structure BJob where
  timestamp : ℚ
  event : String
  objectName : String
deriving DecidableEq, Repr

/-- An issues entry. -/
structure BIssue where
  timestamp : ℚ
  issueType : String
  exposure : Option ℚ := none
deriving DecidableEq, Repr

/-- The session_data dictionary built by parse_analyze_file. -/
structure SessionData where
  filepath : String
  sessionStart : Option String := none
  kstarsVersion : Option String := none
  captures : List BCapture := []
  autofocusSessions : List BAutofocus := []
  temperatureReadings : List (ℚ × ℚ) := []
  mountCoords : List (ℚ × ℚ × ℚ × ℚ × ℚ) := []
  mountStates : List (ℚ × String) := []
  guideStats : List GuideStat := []
  guideStates : List (ℚ × String) := []
  alignStates : List (ℚ × String) := []
  schedulerJobs : List BJob := []
  issues : List BIssue := []
deriving DecidableEq, Repr

/-- Python truthiness of an optional string (None and the empty string are
falsy). -/
def truthyS : Option String → Bool
  | none => false
  | some s => s ≠ ""

/-- The search re.search(r'Solution: (number)', s): leftmost occurrence of
the literal Solution-colon-space followed by at least one digit; the
captured value is the maximal digit run. -/
def findSolutionAux : List Char → Option ℤ
  | [] => none
  | c :: rest =>
    if ("Solution: ".data).isPrefixOf (c :: rest) then
      let ds := ((c :: rest).drop 10).takeWhile Char.isDigit
      if ds.isEmpty then findSolutionAux rest else some (natOfDigits ds : ℤ)
    else findSolutionAux rest

/-- Wrapper of findSolutionAux over a string. -/
def findSolution (s : String) : Option ℤ := findSolutionAux s.data

/-- Character class of the version regex (digits and dots). -/
def isVerChar (c : Char) : Bool := c.isDigit || c = '.'

/-- The search re.search(r'version (digits-and-dots)', s) used on KStars
comment header lines. -/
def findVersionAux : List Char → Option String
  | [] => none
  | c :: rest =>
    if ("version ".data).isPrefixOf (c :: rest) then
      let ds := ((c :: rest).drop 8).takeWhile isVerChar
      if ds.isEmpty then findVersionAux rest else some ⟨ds⟩
    else findVersionAux rest

/-- Wrapper of findVersionAux over a string. -/
def findVersion (s : String) : Option String := findVersionAux s.data

/-- EkosAnalyzer._calculate_fwhm_from_hfr: None for a missing or
non-positive HFR, otherwise HFR times the literal 1.2 conversion factor. -/
def calcFwhm : Option ℚ → Option ℚ
  | none => none
  | some h => if h ≤ 0 then none else some (h * (6 / 5))

/-- The groups-of-4 measurement loop shared verbatim by
_extract_hfr_from_data_section and _extract_hfr_from_autofocus: a quadruple
whose position or outlier flag fails int parse or whose hfr or weight fails
float parse is skipped; an accepted sample needs outlier flag 0 and hfr
between 0.5 and 20.0.  A trailing partial group is ignored. -/
def collectSamples : List String → List HFRSample
  | p :: h :: w :: o :: rest =>
    (match pyInt p, pyFloat h, pyFloat w, pyInt o with
     | some pos, some hfr, some wt, some ol =>
       if ol = 0 ∧ 1 / 2 ≤ hfr ∧ hfr ≤ 20 then [⟨pos, hfr, wt⟩] else []
     | _, _, _, _ => []) ++ collectSamples rest
  | _ => []

/-- Python min(list, key) semantics: the first element attaining the
minimal hfr, via a left fold from the first element. -/
def pyMinBy (x : HFRSample) (xs : List HFRSample) : HFRSample :=
  xs.foldl (fun m y => if y.hfr < m.hfr then y else m) x

/-- The best-HFR selection shared by both extraction functions: minimum hfr
among the collected samples, preferring the first sample whose position
equals the extracted focus position when that position is truthy (a focus
position of 0 is falsy in Python and is ignored). -/
def setBestHfr (af : BAutofocus) : BAutofocus :=
  match af.hfrValues with
  | [] => af
  | x :: xs =>
    let best := pyMinBy x xs
    let best := match af.focusPosition with
      | some fp =>
        if fp ≠ 0 then
          match af.hfrValues.find? (fun (m : HFRSample) => decide (m.position = fp)) with
          | some m => m
          | none => best
        else best
      | none => best
    {af with bestHfr := some best.hfr}

/-- EkosAnalyzer._extract_hfr_from_data_section. -/
def extractHfrFromDataSection (af : BAutofocus) (sec : String) : BAutofocus :=
  if sec = "" ∨ ¬ containsSub "|" sec then af
  else
    let af := match af.solution with
      | some sol =>
        if sol ≠ "" then
          match findSolution sol with
          | some fp => {af with focusPosition := some fp}
          | none => af
        else af
      | none => af
    let af := {af with hfrValues := af.hfrValues ++ collectSamples (splitCh '|' sec)}
    setBestHfr af

/-- The section test of _extract_hfr_from_autofocus: a comma field with at
least 12 pipe-separated values whose first four parse as int, float, float,
int. -/
def hfrSectionOk (part : String) : Bool :=
  containsSub "|" part ∧ (splitCh '|' part).length ≥ 12 ∧
    (pyInt ((splitCh '|' part).getD 0 "")).isSome ∧
    (pyFloat ((splitCh '|' part).getD 1 "")).isSome ∧
    (pyFloat ((splitCh '|' part).getD 2 "")).isSome ∧
    (pyInt ((splitCh '|' part).getD 3 "")).isSome

/-- EkosAnalyzer._extract_hfr_from_autofocus (the fallback extraction from
the solution string). -/
def extractHfrFromAutofocus (af : BAutofocus) : BAutofocus :=
  match af.solution with
  | none => af
  | some solutionStr =>
    if solutionStr = "" then af
    else
      let af := match findSolution solutionStr with
        | some fp => {af with focusPosition := some fp}
        | none => af
      let af :=
        if containsSub "|" solutionStr then
          match (splitCh ',' solutionStr).find? hfrSectionOk with
          | some sec => {af with hfrValues := af.hfrValues ++ collectSamples (splitCh '|' sec)}
          | none => af
        else af
      setBestHfr af

/-- The outcome of one parse_analyze_file loop iteration, independent of
the accumulated session data: either an uncaught exception (abort), no
effect, a header or session-start assignment, or one record appended to
one of the session lists. -/
inductive LineDelta where
  | abort
  | nothing
  | setKstars (v : String)
  | setSessionStart (s : String)
  | addCapture (c : BCapture)
  | addAutofocus (a : BAutofocus)
  | addTemperature (t : ℚ × ℚ)
  | addMountCoords (m : ℚ × ℚ × ℚ × ℚ × ℚ)
  | addMountState (m : ℚ × String)
  | addGuideStat (g : GuideStat)
  | addGuideState (g : ℚ × String)
  | addAlignState (a : ℚ × String)
  | addJob (j : BJob)
  | addIssue (i : BIssue)
deriving DecidableEq, Repr

/-- The branch logic of one parse_analyze_file loop iteration.  An abort is
an uncaught exception (a required float or int conversion outside any local
try block fails); the locally caught failures (missing timestamp, bad hfr
or stars field) only skip the affected value. -/
def decodeLine (rawLine : String) : LineDelta :=
  let line := pystrip rawLine
  if line = "" ∨ line.data.head? = some '#' then
    if ("#KStars version".data).isPrefixOf line.data then
      match findVersion line with
      | some v => .setKstars v
      | none => .nothing
    else .nothing
  else
    let parts := splitCh ',' line
    if parts.length < 2 then .nothing
    else
      let eventType := parts.getD 0 ""
      if eventType = "AnalyzeStartTime" then
        let ds := parts.getD 1 ""
        let ds := if containsSub "." ds then (splitCh '.' ds).headD "" else ds
        .setSessionStart ds
      else
        match pyFloat (parts.getD 1 "") with
        | none => .nothing
        | some ts =>
          if eventType = "Temperature" then
            if parts.length ≥ 3 then
              match pyFloat (parts.getD 2 "") with
              | some temp => .addTemperature (ts, temp)
              | none => .abort
            else .nothing
          else if eventType = "MountState" then
            if parts.length ≥ 3 then .addMountState (ts, parts.getD 2 "")
            else .nothing
          else if eventType = "MountCoords" then
            if parts.length ≥ 8 then
              match pyFloat (parts.getD 2 ""), pyFloat (parts.getD 3 ""),
                    pyFloat (parts.getD 4 ""), pyFloat (parts.getD 5 "") with
              | some ra, some dec, some az, some alt => .addMountCoords (ts, ra, dec, az, alt)
              | _, _, _, _ => .abort
            else .nothing
          else if eventType = "CaptureStarting" then
            if parts.length ≥ 4 then
              match pyFloat (parts.getD 2 "") with
              | some expo =>
                .addCapture {timestamp := ts, event := "starting", exposure := expo,
                             filterName := parts.getD 3 ""}
              | none => .abort
            else .nothing
          else if eventType = "CaptureComplete" then
            if parts.length ≥ 6 then
              let hfrValue : Option ℚ := match pyFloat (parts.getD 4 "") with
                | some h => if h > 0 then some h else none
                | none => none
              let starsValue : Option ℤ :=
                if parts.length > 7 then
                  match pyInt (parts.getD 7 "") with
                  | some z => if z > 0 then some z else none
                  | none => none
                else none
              match pyFloat (parts.getD 2 "") with
              | some expo =>
                .addCapture {timestamp := ts, event := "complete", exposure := expo,
                             filterName := parts.getD 3 "",
                             hfr := hfrValue,
                             fwhm := if truthyQ hfrValue then calcFwhm hfrValue else none,
                             stars := starsValue,
                             filepath := some (parts.getD 5 "")}
              | none => .abort
            else .nothing
          else if eventType = "CaptureAborted" then
            if parts.length > 2 then
              match pyFloat (parts.getD 2 "") with
              | some expo =>
                .addIssue {timestamp := ts, issueType := "capture_aborted", exposure := some expo}
              | none => .abort
            else
              .addIssue {timestamp := ts, issueType := "capture_aborted", exposure := none}
          else if eventType = "AutofocusStarting" then
            if parts.length ≥ 5 then
              match pyFloat (parts.getD 3 ""), pyInt (parts.getD 4 "") with
              | some temp, some st =>
                .addAutofocus {timestamp := ts, event := "starting", filterName := parts.getD 2 "",
                               temperature := temp, step := st}
              | _, _ => .abort
            else .nothing
          else if eventType = "AutofocusComplete" then
            if parts.length ≥ 6 then
              let hfrDataSection : Option String :=
                if parts.length > 6 then some (parts.getD 6 "") else none
              match pyFloat (parts.getD 2 ""), pyInt (parts.getD 3 "") with
              | some temp, some st =>
                let af : BAutofocus :=
                  {timestamp := ts, event := "complete", temperature := temp, step := st,
                   filterName := parts.getD 5 "",
                   solution := if parts.length > 6 then some (parts.getLastD "") else none,
                   hfrDataRaw := hfrDataSection}
                let af := match hfrDataSection with
                  | some sec =>
                    if sec ≠ "" ∧ containsSub "|" sec then extractHfrFromDataSection af sec
                    else af
                  | none => af
                let af :=
                  if ¬ truthyQ af.bestHfr ∧ truthyS af.solution then extractHfrFromAutofocus af
                  else af
                .addAutofocus af
              | _, _ => .abort
            else .nothing
          else if eventType = "GuideStats" then
            if parts.length ≥ 7 then
              match pyFloat (parts.getD 2 ""), pyFloat (parts.getD 3 ""),
                    pyInt (parts.getD 4 ""), pyInt (parts.getD 5 ""),
                    pyFloat (parts.getD 6 ""),
                    (if parts.length > 7 then pyFloat (parts.getD 7 "") else some 0),
                    (if parts.length > 8 then pyFloat (parts.getD 8 "") else some 0) with
              | some dx, some dy, some pra, some pdec, some dist, some rms, some snr =>
                .addGuideStat {timestamp := ts, dx := dx, dy := dy, pulseRa := pra,
                               pulseDec := pdec, distance := dist, rms := rms, snr := snr}
              | _, _, _, _, _, _, _ => .abort
            else .nothing
          else if eventType = "GuideState" then
            if parts.length ≥ 3 then .addGuideState (ts, parts.getD 2 "")
            else .nothing
          else if eventType = "AlignState" then
            if parts.length ≥ 3 then .addAlignState (ts, parts.getD 2 "")
            else .nothing
          else if eventType = "SchedulerJobStart" then
            if parts.length ≥ 3 then
              .addJob {timestamp := ts, event := "start", objectName := parts.getD 2 ""}
            else .nothing
          else if eventType = "SchedulerJobEnd" then
            if parts.length ≥ 3 then
              .addJob {timestamp := ts, event := "end", objectName := parts.getD 2 ""}
            else .nothing
          else .nothing

/-- Apply the outcome of one loop iteration to the accumulated session
data (the append statements of the source loop); abort yields none. -/
def applyDelta (sd : SessionData) : LineDelta → Option SessionData
  | .abort => none
  | .nothing => some sd
  | .setKstars v => some {sd with kstarsVersion := some v}
  | .setSessionStart s => some {sd with sessionStart := some s}
  | .addCapture c => some {sd with captures := sd.captures ++ [c]}
  | .addAutofocus a => some {sd with autofocusSessions := sd.autofocusSessions ++ [a]}
  | .addTemperature t => some {sd with temperatureReadings := sd.temperatureReadings ++ [t]}
  | .addMountCoords m => some {sd with mountCoords := sd.mountCoords ++ [m]}
  | .addMountState m => some {sd with mountStates := sd.mountStates ++ [m]}
  | .addGuideStat g => some {sd with guideStats := sd.guideStats ++ [g]}
  | .addGuideState g => some {sd with guideStates := sd.guideStates ++ [g]}
  | .addAlignState a => some {sd with alignStates := sd.alignStates ++ [a]}
  | .addJob j => some {sd with schedulerJobs := sd.schedulerJobs ++ [j]}
  | .addIssue i => some {sd with issues := sd.issues ++ [i]}

/-- One iteration of the parse_analyze_file line loop. -/
def parseStep (sd : SessionData) (rawLine : String) : Option SessionData :=
  applyDelta sd (decodeLine rawLine)


/-- The parse_analyze_file loop over the stripped file lines: an aborting
line ends the loop, returning the session data accumulated so far. -/
def parseLines (sd : SessionData) : List String → SessionData
  | [] => sd
  | l :: ls =>
    match parseStep sd l with
    | none => sd
    | some sd1 => parseLines sd1 ls

/-- EkosAnalyzer.parse_analyze_file of a file given as its list of raw
lines. -/
def parseAnalyzeFile (filepath : String) (lines : List String) : SessionData :=
  parseLines {filepath := filepath} lines

/-! ## Timestamp sorting (Python sorted with a timestamp key) -/

/-- Stable insertion of x before the first element with a key not smaller
than x. -/
def insertByKey {α : Type} (key : α → ℚ) (x : α) : List α → List α
  | [] => [x]
  | y :: ys => if key x ≤ key y then x :: y :: ys else y :: insertByKey key x ys

/-- Stable sort by a rational key (the semantics of Python sorted with a
timestamp key function). -/
def sortByKey {α : Type} (key : α → ℚ) : List α → List α
  | [] => []
  | x :: xs => insertByKey key x (sortByKey key xs)

/-! ## Autofocus-capture association (ekos_analyzer.py) -/

/-- The next same-filter completed autofocus after af within the sorted
autofocus list, or two hours after af when none follows. -/
def nextAfTs (allAfs : List BAutofocus) (af : BAutofocus) : ℚ :=
  match allAfs.find? (fun (n : BAutofocus) =>
      decide (n.timestamp > af.timestamp) && decide (n.filterName = af.filterName)) with
  | some n => n.timestamp
  | none => af.timestamp + 7200

/-- The per-capture update of _associate_autofocus_with_captures for one
autofocus session: fill hfr and fwhm only for completed same-filter
captures strictly inside the window whose hfr is missing. -/
def backfillCapture (allAfs : List BAutofocus) (af : BAutofocus) (c : BCapture) : BCapture :=
  if c.event = "complete" ∧ c.filterName = af.filterName ∧ c.timestamp > af.timestamp ∧
      c.timestamp < nextAfTs allAfs af ∧ c.hfr = none then
    {c with hfr := af.bestHfr, fwhm := calcFwhm af.bestHfr}
  else c

/-- Iterate the backfill over the sorted completed autofocus sessions,
skipping sessions without a truthy best hfr. -/
def assocFold (allAfs : List BAutofocus) : List BAutofocus → List BCapture → List BCapture
  | [], caps => caps
  | af :: rest, caps =>
    assocFold allAfs rest
      (if truthyQ af.bestHfr then caps.map (backfillCapture allAfs af) else caps)

/-- EkosAnalyzer._associate_autofocus_with_captures.  The source iterates
over the timestamp-sorted completed captures and mutates them in place;
since the update condition of each capture depends only on that capture,
this equals mapping the update over the capture list. -/
def associateAutofocus (sd : SessionData) : SessionData :=
  if sd.autofocusSessions = [] ∨ sd.captures = [] then sd
  else
    let sortedAfs := sortByKey BAutofocus.timestamp
      (sd.autofocusSessions.filter (fun (a : BAutofocus) => decide (a.event = "complete")))
    {sd with captures := assocFold sortedAfs sortedAfs sd.captures}

/-! ## Scheduler-job attribution (ekos_analyzer.py) -/

/-- The loop of _get_object_name_for_capture over the sorted start events:
keep updating the active job while its start is not after the capture,
stop at the first later one. -/
def findActiveJob (cts : ℚ) : List BJob → Option BJob
  | [] => none
  | j :: js => if j.timestamp ≤ cts then some ((findActiveJob cts js).getD j) else none

/-- EkosAnalyzer._get_object_name_for_capture. -/
def getObjectNameForCapture (cts : ℚ) (jobs : List BJob) : Option String :=
  if jobs = [] then none
  else
    match sortByKey BJob.timestamp (jobs.filter (fun (j : BJob) => decide (j.event = "start"))) with
    | [] => none
    | j0 :: rest =>
      match findActiveJob cts (j0 :: rest) with
      | some j => some j.objectName
      | none => some j0.objectName

/-- The prefix match re.match(r'ekos-(date)', basename) with a
four-digit-dash-two-digit-dash-two-digit date group. -/
def matchEkosDate : List Char → Option (List Char)
  | 'e' :: 'k' :: 'o' :: 's' :: '-' :: a :: b :: c :: d :: '-' :: m :: n :: '-' :: p :: q :: _ =>
    if a.isDigit ∧ b.isDigit ∧ c.isDigit ∧ d.isDigit ∧ m.isDigit ∧ n.isDigit ∧
        p.isDigit ∧ q.isDigit then
      some [a, b, c, d, '-', m, n, '-', p, q]
    else none
  | _ => none

/-- EkosAnalyzer._extract_object_name: Session_ plus the date taken from an
ekos-prefixed file name, otherwise Unknown. -/
def extractObjectName (filepath : String) : String :=
  let basename := (splitCh '/' filepath).getLastD filepath
  match matchEkosDate basename.data with
  | some ds => ⟨"Session_".data ++ ds⟩
  | none => "Unknown"

/-- The owning-object computation of aggregate_session_data for one
completed capture: the scheduler attribution, with the Python or-fallback
to the file-name derived session name when the attribution is missing or
empty. -/
def objNameForCapture (c : BCapture) (jobs : List BJob) (filepath : String) : String :=
  match getObjectNameForCapture c.timestamp jobs with
  | some n => if n ≠ "" then n else extractObjectName filepath
  | none => extractObjectName filepath

/-! ## Sub-session segmentation (_build_enhanced_filter_analysis) -/

/-- The segmentation loop over the timestamp-sorted captures of one filter:
a gap above 1800 seconds from the previous capture finalizes the current
sub-session and opens a new one. -/
def segGo (prev : BCapture) (cur : List BCapture) : List BCapture → List (List BCapture)
  | [] => [cur]
  | c :: cs =>
    if c.timestamp - prev.timestamp > 1800 then cur :: segGo c [c] cs
    else segGo c (cur ++ [c]) cs

/-- Sub-session detection over a sorted capture list (the code appends the
final nonempty current sub-session after the loop; an empty input yields no
sub-sessions). -/
def segmentCaptures : List BCapture → List (List BCapture)
  | [] => []
  | c :: cs => segGo c [c] cs

/-! ## Streaming file watcher (realtime_monitor.py, AnalyzeFileWatcher) -/

/-- AnalyzeFileWatcher.read_new_lines, with the watched file abstracted as
its current text content and the stored byte position: read everything
from the stored position, advance the position to the end of file, split
the new data on newlines and drop whitespace-only entries. -/
def readNewLines (content : String) (pos : Nat) : Nat × List String :=
  let newData : List Char := content.data.drop pos
  (content.data.length,
   if newData = [] then []
   else ((splitPAux (fun c => c = '\n') newData []).map (fun cs => (⟨cs⟩ : String))).filter
     (fun l => pystrip l ≠ ""))

/-! ## Derived event projections used in theorem statements -/

/-- Durations of the capture_complete events of an event list. -/
def captureCompleteDurations (evs : List RTEvent) : List ℚ :=
  evs.filterMap (fun e => match e with
    | RTEvent.captureComplete _ _ _ _ _ _ _ _ d _ => some d
    | _ => none)

/-- Times and durations of the lost guide_problem events of an event list. -/
def guideLostEvents (evs : List RTEvent) : List (ℚ × ℚ) :=
  evs.filterMap (fun e => match e with
    | RTEvent.guideLost t d => some (t, d)
    | _ => none)

/-- Times and durations of the recovered guide_problem events. -/
def guideRecoveredEvents (evs : List RTEvent) : List (ℚ × ℚ) :=
  evs.filterMap (fun e => match e with
    | RTEvent.guideRecovered t d => some (t, d)
    | _ => none)

/-- Times of the frequent_reacquire guide_problem events. -/
def freqReacquireEvents (evs : List RTEvent) : List ℚ :=
  evs.filterMap (fun e => match e with
    | RTEvent.guideFrequentReacquire t _ _ => some t
    | _ => none)

/-! ## Generic lemmas about the splitting primitives -/

theorem splitPAux_no_sep (p : Char → Bool) (l acc : List Char)
    (h : ∀ c ∈ l, p c = false) : splitPAux p l acc = [acc.reverse ++ l] := by
  induction l generalizing acc with
  | nil => simp [splitPAux]
  | cons x xs ih =>
    have hx : p x = false := h x (by simp)
    simp only [splitPAux, hx, Bool.false_eq_true, if_false]
    rw [ih _ (fun c hc => h c (by simp [hc]))]
    simp

theorem splitPAux_sep_end (p : Char → Bool) (l : List Char) (c : Char) (acc : List Char)
    (hl : ∀ x ∈ l, p x = false) (hc : p c = true) :
    splitPAux p (l ++ [c]) acc = [acc.reverse ++ l, []] := by
  induction l generalizing acc with
  | nil => simp [splitPAux, hc]
  | cons x xs ih =>
    have hx : p x = false := hl x (by simp)
    simp only [List.cons_append, splitPAux, hx, Bool.false_eq_true, if_false]
    rw [List.append_eq, ih _ (fun y hy => hl y (by simp [hy]))]
    simp

theorem string_mk_data (s : String) : (⟨s.data⟩ : String) = s := rfl

/-! ## C9: streaming tailer read_new_lines -/

/-- C9 (amended): read_new_lines returns the newly appended text split at
newlines with whitespace-only segments dropped and advances the stored
position to the end of the file.  A newly appended complete line (its
newline written) is returned exactly once, in order; but a trailing line
whose newline has not yet been written is NOT buffered: it is returned
immediately by the current call, so its continuation arrives in a later
call (the line is split across calls). -/
theorem readNewLines_segments :
    (∀ content line : String, (∀ c ∈ line.data, ¬ c = '\n') → pystrip line ≠ "" →
      readNewLines (content ++ line ++ "\n") content.data.length
        = (content.data.length + line.data.length + 1, [line])) ∧
    (∀ content extra : String, extra.data ≠ [] → (∀ c ∈ extra.data, ¬ c = '\n') →
      pystrip extra ≠ "" →
      readNewLines (content ++ extra) content.data.length
        = (content.data.length + extra.data.length, [extra])) := by
  constructor
  · intro content line hnl hns
    have hdata : (content ++ line ++ "\n").data = content.data ++ (line.data ++ ['\n']) := by
      simp [String.data_append]
    have hdrop : (content.data ++ (line.data ++ ['\n'])).drop content.data.length
        = line.data ++ ['\n'] := List.drop_left _ _
    have hsplit : splitPAux (fun c => c = '\n') (line.data ++ ['\n']) []
        = [line.data, []] := by
      have := splitPAux_sep_end (fun c => c = '\n') line.data '\n' []
        (fun x hx => by simpa using hnl x hx) (by simp)
      simpa using this
    have h0 : pystrip "" = "" := rfl
    simp only [readNewLines, hdata, hdrop, hsplit]
    simp [List.filter_cons, string_mk_data, hns, h0, List.length_append]
    omega
  · intro content extra hne hnl hns
    have hdata : (content ++ extra).data = content.data ++ extra.data := by
      simp [String.data_append]
    have hdrop : (content.data ++ extra.data).drop content.data.length = extra.data :=
      List.drop_left _ _
    have hsplit : splitPAux (fun c => c = '\n') extra.data []
        = [extra.data] := by
      have := splitPAux_no_sep (fun c => c = '\n') extra.data []
        (fun x hx => by simpa using hnl x hx)
      simpa using this
    simp only [readNewLines, hdata, hdrop, hsplit]
    simp [string_mk_data, hns, hne]

/-- C9 witness: a complete appended line is returned whole; an incomplete
one is returned unbuffered. -/
theorem readNewLines_segments_witness :
    readNewLines ("GuideState,1,Guiding\n" ++ "GuideState,2,Aborted" ++ "\n") 21
      = (42, ["GuideState,2,Aborted"]) ∧
    readNewLines ("GuideState,1,Guiding\n" ++ "GuideSt") 21 = (28, ["GuideSt"]) := by
  constructor
  · have h := readNewLines_segments.1 "GuideState,1,Guiding\n" "GuideState,2,Aborted"
      (by decide) (by decide)
    simpa using h
  · have h := readNewLines_segments.2 "GuideState,1,Guiding\n" "GuideSt"
      (by decide) (by decide) (by decide)
    simpa using h

/-- C9 counterexample: the first read returns the partial prefix of a line
whose newline has not been written yet, and a later read returns the rest:
the line is split across two calls, refuting the buffering claim. -/
theorem readNewLines_split_line :
    readNewLines "AnalyzeSt" 0 = (9, ["AnalyzeSt"]) ∧
    readNewLines "AnalyzeStart,1,2\n" 9 = (17, ["art,1,2"]) ∧
    "AnalyzeSt" ++ "art,1,2" = "AnalyzeStart,1,2" := by
  refine ⟨?_, ?_, ?_⟩ <;> decide

/-! ## C8: malformed-line fault isolation -/

/-- The malformed-line categories of the realtime decoder: blank, comment,
fewer than two comma fields, or a failing numeric time-offset parse (the
offset field exists for every line except an AnalyzeStartTime line with its
timezone field present, whose second field is a datetime). -/
def malformedR (line : String) : Prop :=
  pystrip line = "" ∨ (pystrip line).data.head? = some '#' ∨
  (splitCh ',' (pystrip line)).length < 2 ∨
  (¬ ((splitCh ',' (pystrip line)).getD 0 "" = "AnalyzeStartTime" ∧
      (splitCh ',' (pystrip line)).length ≥ 3) ∧
    pyFloat ((splitCh ',' (pystrip line)).getD 1 "") = none)

/-- The malformed-line categories of the batch parser (its AnalyzeStartTime
branch has no arity guard beyond the global field-count check). -/
def malformedB (line : String) : Prop :=
  pystrip line = "" ∨ (pystrip line).data.head? = some '#' ∨
  (splitCh ',' (pystrip line)).length < 2 ∨
  ((splitCh ',' (pystrip line)).getD 0 "" ≠ "AnalyzeStartTime" ∧
    pyFloat ((splitCh ',' (pystrip line)).getD 1 "") = none)

theorem processLine_malformed (cfg : RTConfig) (s : RTState) (line : String)
    (h : malformedR line) : processLine cfg s line = (s, []) := by
  unfold processLine
  rcases h with h | h | h | h
  · simp [h]
  · simp [h]
  · by_cases h1 : pystrip line = "" ∨ (pystrip line).data.head? = some '#'
    · simp [h1]
    · simp [h1, h]
  · by_cases h1 : pystrip line = "" ∨ (pystrip line).data.head? = some '#'
    · simp [h1]
    · by_cases h2 : (splitCh ',' (pystrip line)).length < 2
      · simp [h1, h2]
      · have h3 := h.1
        have h4 := h.2
        simp only [List.getD_eq_getElem?_getD] at h3 h4
        simp [h1, h2, h3, h4]

theorem processLines_append (cfg : RTConfig) (s : RTState) (xs ys : List String) :
    processLines cfg s (xs ++ ys)
      = ((processLines cfg (processLines cfg s xs).1 ys).1,
         (processLines cfg s xs).2 ++ (processLines cfg (processLines cfg s xs).1 ys).2) := by
  induction xs generalizing s with
  | nil => simp [processLines]
  | cons x xs ih => simp [processLines, ih]

theorem decodeLine_malformedB (line : String) (h : malformedB line) :
    decodeLine line = LineDelta.nothing ∨ ∃ v, decodeLine line = LineDelta.setKstars v := by
  unfold decodeLine
  rcases h with h | h | h | h
  · have h1 : pystrip line = "" ∨ (pystrip line).data.head? = some '#' := Or.inl h
    simp only [h1, if_true]
    by_cases hk : ("#KStars version".data).isPrefixOf (pystrip line).data
    · simp only [hk, if_true]
      cases findVersion (pystrip line) with
      | none => exact Or.inl rfl
      | some v => exact Or.inr ⟨v, rfl⟩
    · simp [hk]
  · have h1 : pystrip line = "" ∨ (pystrip line).data.head? = some '#' := Or.inr h
    simp only [h1, if_true]
    by_cases hk : ("#KStars version".data).isPrefixOf (pystrip line).data
    · simp only [hk, if_true]
      cases findVersion (pystrip line) with
      | none => exact Or.inl rfl
      | some v => exact Or.inr ⟨v, rfl⟩
    · simp [hk]
  · by_cases h1 : pystrip line = "" ∨ (pystrip line).data.head? = some '#'
    · simp only [h1, if_true]
      by_cases hk : ("#KStars version".data).isPrefixOf (pystrip line).data
      · simp only [hk, if_true]
        cases findVersion (pystrip line) with
        | none => exact Or.inl rfl
        | some v => exact Or.inr ⟨v, rfl⟩
      · simp [hk]
    · simp [h1, h]
  · by_cases h1 : pystrip line = "" ∨ (pystrip line).data.head? = some '#'
    · simp only [h1, if_true]
      by_cases hk : ("#KStars version".data).isPrefixOf (pystrip line).data
      · simp only [hk, if_true]
        cases findVersion (pystrip line) with
        | none => exact Or.inl rfl
        | some v => exact Or.inr ⟨v, rfl⟩
      · simp [hk]
    · by_cases h2 : (splitCh ',' (pystrip line)).length < 2
      · simp [h1, h2]
      · have h3 := h.1
        have h4 := h.2
        simp only [List.getD_eq_getElem?_getD] at h3 h4
        simp [h1, h2, h3, h4]

theorem applyDelta_kstars (sd : SessionData) (v : Option String) (d : LineDelta) :
    (applyDelta {sd with kstarsVersion := v} d = none ∧ applyDelta sd d = none) ∨
    (∃ r, applyDelta sd d = some r ∧
      (applyDelta {sd with kstarsVersion := v} d = some {r with kstarsVersion := v} ∨
       applyDelta {sd with kstarsVersion := v} d = some r)) := by
  cases d with
  | abort => exact Or.inl ⟨rfl, rfl⟩
  | setKstars u => exact Or.inr ⟨_, rfl, Or.inr rfl⟩
  | nothing => exact Or.inr ⟨_, rfl, Or.inl rfl⟩
  | setSessionStart x => exact Or.inr ⟨_, rfl, Or.inl rfl⟩
  | addCapture x => exact Or.inr ⟨_, rfl, Or.inl rfl⟩
  | addAutofocus x => exact Or.inr ⟨_, rfl, Or.inl rfl⟩
  | addTemperature x => exact Or.inr ⟨_, rfl, Or.inl rfl⟩
  | addMountCoords x => exact Or.inr ⟨_, rfl, Or.inl rfl⟩
  | addMountState x => exact Or.inr ⟨_, rfl, Or.inl rfl⟩
  | addGuideStat x => exact Or.inr ⟨_, rfl, Or.inl rfl⟩
  | addGuideState x => exact Or.inr ⟨_, rfl, Or.inl rfl⟩
  | addAlignState x => exact Or.inr ⟨_, rfl, Or.inl rfl⟩
  | addJob x => exact Or.inr ⟨_, rfl, Or.inl rfl⟩
  | addIssue x => exact Or.inr ⟨_, rfl, Or.inl rfl⟩

theorem parseLines_kstars (ls : List String) (sd : SessionData) (v : Option String) :
    ∃ w, parseLines {sd with kstarsVersion := v} ls = {parseLines sd ls with kstarsVersion := w} := by
  induction ls generalizing sd v with
  | nil => exact ⟨v, rfl⟩
  | cons l ls ih =>
    rcases applyDelta_kstars sd v (decodeLine l) with ⟨h1, h2⟩ | ⟨r, hr, hcase⟩
    · refine ⟨v, ?_⟩
      simp [parseLines, parseStep, h1, h2]
    · rcases hcase with hc | hc
      · obtain ⟨w, hw⟩ := ih r v
        refine ⟨w, ?_⟩
        simp [parseLines, parseStep, hr, hc, hw]
      · refine ⟨(parseLines r ls).kstarsVersion, ?_⟩
        simp [parseLines, parseStep, hr, hc]

/-- C8: line decoding is fault-isolated.  A blank line, a comment line, a
line with fewer than two comma fields, or a line whose time-offset field
fails float parsing yields zero events from the realtime decoder and leaves
its state unchanged, so inserting such a line anywhere leaves the decoding
of every other line unchanged; in the batch parser such a line appends no
event record and the parse of the remaining lines is unchanged except
possibly for the informational KStars version string taken from a comment
header. -/
theorem malformed_lines_fault_isolated :
    (∀ (cfg : RTConfig) (s : RTState) (line : String), malformedR line →
      processLine cfg s line = (s, [])) ∧
    (∀ (cfg : RTConfig) (s : RTState) (pre post : List String) (line : String),
      malformedR line →
      processLines cfg s (pre ++ line :: post) = processLines cfg s (pre ++ post)) ∧
    (∀ (sd : SessionData) (line : String) (rest : List String), malformedB line →
      ∃ w, parseLines sd (line :: rest) = {parseLines sd rest with kstarsVersion := w}) := by
  refine ⟨processLine_malformed, ?_, ?_⟩
  · intro cfg s pre post line h
    rw [processLines_append, processLines_append]
    have hstep : processLines cfg (processLines cfg s pre).1 (line :: post)
        = processLines cfg (processLines cfg s pre).1 post := by
      simp [processLines, processLine_malformed _ _ _ h]
    rw [hstep]
  · intro sd line rest h
    rcases decodeLine_malformedB line h with hd | ⟨v, hd⟩
    · refine ⟨(parseLines sd rest).kstarsVersion, ?_⟩
      simp [parseLines, parseStep, hd, applyDelta]
    · have := parseLines_kstars rest sd (some v)
      obtain ⟨w, hw⟩ := this
      refine ⟨w, ?_⟩
      simp [parseLines, parseStep, hd, applyDelta, hw]

/-- C8 witness: concrete malformed lines of each category are dropped
without effect on the rest of the decode. -/
theorem malformed_lines_fault_isolated_witness :
    processLine {} initRT "# comment" = (initRT, []) ∧
    processLines {} initRT
        (["AnalyzeStartTime,2025-01-01 20:00:00,UTC"] ++ "GuideState,bad,Guiding" ::
          ["GuideState,10,Guiding"])
      = processLines {} initRT
          (["AnalyzeStartTime,2025-01-01 20:00:00,UTC"] ++ ["GuideState,10,Guiding"]) ∧
    ∃ w, parseLines {filepath := "f"} ("#KStars version 3.6.8" :: ["MountState,5,Tracking"])
      = {parseLines {filepath := "f"} ["MountState,5,Tracking"] with kstarsVersion := w} := by
  refine ⟨malformed_lines_fault_isolated.1 {} initRT "# comment" (by unfold malformedR; decide),
    malformed_lines_fault_isolated.2.1 {} initRT _ _ "GuideState,bad,Guiding" (by unfold malformedR; decide),
    malformed_lines_fault_isolated.2.2 {filepath := "f"} "#KStars version 3.6.8"
      ["MountState,5,Tracking"] (by unfold malformedB; decide)⟩

/-! ## C1: capture and autofocus duration pairing -/

/-- C1 (amended): a CaptureComplete with a pending start at offset t0 not
equal to 0 yields exactly one capture_complete event with duration time
minus t0 and clears the pending start; when the pending start is absent or
at offset exactly 0 (Python truthiness) the duration falls back to the
exposure field.  An AutofocusAborted with no pending start yields duration
0, while an AutofocusComplete with no pending start yields no event at all.
A CaptureStarting always records its offset as the pending start time. -/
theorem capture_pairing_durations :
    (∀ (s : RTState) (time t0 exposure hfr : ℚ) (ns md : ℤ) (ec : ℚ) (parts : List String),
      s.captureStartedTime = some t0 → t0 ≠ 0 →
      pyFloat (parts.getD 2 "") = some exposure →
      pyFloat (parts.getD 4 "") = some hfr →
      (if parts.length > 6 then pyInt (parts.getD 6 "") else some 0) = some ns →
      (if parts.length > 7 then pyInt (parts.getD 7 "") else some 0) = some md →
      (if parts.length > 8 then pyFloat (parts.getD 8 "") else some 0) = some ec →
      captureCompleteDurations (handleCaptureComplete s time parts).2 = [time - t0] ∧
      (handleCaptureComplete s time parts).1.captureStartedTime = none) ∧
    (∀ (s : RTState) (time exposure hfr : ℚ) (ns md : ℤ) (ec : ℚ) (parts : List String),
      (s.captureStartedTime = none ∨ s.captureStartedTime = some 0) →
      pyFloat (parts.getD 2 "") = some exposure →
      pyFloat (parts.getD 4 "") = some hfr →
      (if parts.length > 6 then pyInt (parts.getD 6 "") else some 0) = some ns →
      (if parts.length > 7 then pyInt (parts.getD 7 "") else some 0) = some md →
      (if parts.length > 8 then pyFloat (parts.getD 8 "") else some 0) = some ec →
      captureCompleteDurations (handleCaptureComplete s time parts).2 = [exposure]) ∧
    (∀ (s : RTState) (time : ℚ), s.afStartedTime = none →
      (handleAfAborted s time).2 = [RTEvent.autofocusAborted time s.afStartedFilter 0]) ∧
    (∀ (s : RTState) (time : ℚ) (parts : List String), s.afStartedTime = none →
      handleAfComplete s time parts = (s, [])) ∧
    (∀ (s : RTState) (time : ℚ) (parts : List String),
      (handleCaptureStarting s time parts).1.captureStartedTime = some time) := by
  refine ⟨?_, ?_, ?_, ?_, ?_⟩
  · intro s time t0 exposure hfr ns md ec parts hs ht0 h2 h4 h6 h7 h8
    simp only [List.getD_eq_getElem?_getD] at h2 h4 h6 h7 h8
    simp [handleCaptureComplete, h2, h4, h6, h7, h8, hs, ht0, captureCompleteDurations]
  · intro s time exposure hfr ns md ec parts hs h2 h4 h6 h7 h8
    simp only [List.getD_eq_getElem?_getD] at h2 h4 h6 h7 h8
    rcases hs with hs | hs <;>
      simp [handleCaptureComplete, h2, h4, h6, h7, h8, hs, captureCompleteDurations]
  · intro s time hs
    simp [handleAfAborted, hs]
  · intro s time parts hs
    simp [handleAfComplete, hs]
  · intro s time parts
    unfold handleCaptureStarting
    cases pyFloat (parts.getD 2 "") <;> simp

/-- C1 witness: concrete evaluations of every amended conjunct. -/
theorem capture_pairing_durations_witness :
    captureCompleteDurations (handleCaptureComplete {initRT with captureStartedTime := some 50}
      100 ["CaptureComplete", "100", "60", "L", "2.5", "f.fits"]).2 = [50] ∧
    captureCompleteDurations (handleCaptureComplete initRT 100
      ["CaptureComplete", "100", "60", "L", "2.5", "f.fits"]).2 = [60] ∧
    (handleAfAborted initRT 80).2 = [RTEvent.autofocusAborted 80 "" 0] ∧
    handleAfComplete initRT 80 ["AutofocusComplete", "80", "5.0", "3"] = (initRT, []) ∧
    (handleCaptureStarting initRT 10
      ["CaptureStarting", "10", "60", "L"]).1.captureStartedTime = some 10 := by
  have hf100 : pyFloat "100" = some 100 := by
    norm_num +decide [pyFloat, pystripL, parseFloatCore, parseExpPart, natOfDigits, digitVal,
      isPySpace]
  have hf60 : pyFloat "60" = some 60 := by
    norm_num +decide [pyFloat, pystripL, parseFloatCore, parseExpPart, natOfDigits, digitVal,
      isPySpace]
  have hf25 : pyFloat "2.5" = some (5 / 2) := by
    norm_num +decide [pyFloat, pystripL, parseFloatCore, parseExpPart, natOfDigits, digitVal,
      isPySpace]
  refine ⟨?_, ?_, ?_, ?_, ?_⟩
  · have h := (capture_pairing_durations.1 {initRT with captureStartedTime := some 50} 100 50
      60 (5 / 2) 0 0 0 ["CaptureComplete", "100", "60", "L", "2.5", "f.fits"]
      rfl (by norm_num) hf60 hf25 rfl rfl rfl).1
    rw [h]
    norm_num
  · have h := capture_pairing_durations.2.1 initRT 100 60 (5 / 2) 0 0 0
      ["CaptureComplete", "100", "60", "L", "2.5", "f.fits"]
      (Or.inl rfl) hf60 hf25 rfl rfl rfl
    exact h
  · exact capture_pairing_durations.2.2.1 initRT 80 rfl
  · exact capture_pairing_durations.2.2.2.1 initRT 80 ["AutofocusComplete", "80", "5.0", "3"] rfl
  · exact capture_pairing_durations.2.2.2.2 initRT 10 ["CaptureStarting", "10", "60", "L"]

/-- C1 counterexample: a CaptureStarting at offset exactly 0 followed by a
CaptureComplete at offset 100 yields duration 60 (the exposure fallback),
not 100 minus 0 as the claim demands; and an AutofocusComplete with no
pending AutofocusStarting emits no event at all rather than an event with
duration 0. -/
theorem capture_pairing_durations_cex :
    captureCompleteDurations
      (processLines {} initRT
        ["CaptureStarting,0,60,L", "CaptureComplete,100,60,L,2.5,f.fits"]).2 = [60] ∧
    (60 : ℚ) ≠ 100 - 0 ∧
    (processLine {} initRT "AutofocusComplete,50,5.0,3").2 = [] := by
  refine ⟨?_, by norm_num, ?_⟩
  · norm_num +decide [processLines, processLine, handleCaptureStarting, handleCaptureComplete,
      extractObjectFromFilename, picturesScan, objScan, joinWith, replaceCh,
      captureCompleteDurations, pyFloat, pyInt, pystrip, pystripL, parseFloatCore, parseExpPart,
      natOfDigits, digitVal, isPySpace, splitCh, splitPAux, initRT]
  · norm_num +decide [processLine, handleAfComplete, pyFloat, pyInt, pystrip, pystripL,
      parseFloatCore, parseExpPart, natOfDigits, digitVal, isPySpace, splitCh, splitPAux, initRT]

/-! ## C4: guide lost / recovered state machine -/

/-- The guide-lost start in effect after an Aborted or Idle transition: the
current time when guiding was active with no loss recorded yet, otherwise
the previously recorded loss start. -/
def lostStartAfter (s : RTState) (time : ℚ) : Option ℚ :=
  if s.guidingActive = true ∧ s.guideLostTime = none then some time else s.guideLostTime

/-- C4 (amended): entering Aborted or Idle while guiding records the loss
start once (later Aborted or Idle events keep it); a lost notification is
emitted exactly at the first ABORTED-or-IDLE-state GuideState event whose
time minus the loss start reaches the threshold while no alert has fired
(GuideState events of other states never emit lost, even past the
threshold); the alert flag then blocks further lost notifications; and a
transition into Guiding emits recovered with the elapsed loss duration
exactly when a lost notification is pending unacknowledged, clearing the
loss tracking either way. -/
theorem guide_lost_recovered :
    (∀ (cfg : RTConfig) (s : RTState) (time : ℚ) (st : String),
      (st = "Aborted" ∨ st = "Idle") →
      (s.guidingActive = true ∧ s.guideLostTime = none →
        (handleGuideState cfg s time st).1.guideLostTime = some time ∧
        (handleGuideState cfg s time st).1.guidingActive = false) ∧
      (∀ t0, s.guideLostTime = some t0 →
        (handleGuideState cfg s time st).1.guideLostTime = some t0)) ∧
    (∀ (cfg : RTConfig) (s : RTState) (time : ℚ) (st : String) (t0 : ℚ),
      (st = "Aborted" ∨ st = "Idle") →
      lostStartAfter s time = some t0 →
      guideLostEvents (handleGuideState cfg s time st).2 =
        (if s.guideLostAlerted = false ∧ time - t0 ≥ cfg.guideLostThreshold
         then [(time, time - t0)] else []) ∧
      (handleGuideState cfg s time st).1.guideLostAlerted =
        (if s.guideLostAlerted = false ∧ time - t0 ≥ cfg.guideLostThreshold
         then true else s.guideLostAlerted)) ∧
    (∀ (cfg : RTConfig) (s : RTState) (time : ℚ) (st : String),
      ¬ (st = "Aborted" ∨ st = "Idle") →
      guideLostEvents (handleGuideState cfg s time st).2 = []) ∧
    (∀ (cfg : RTConfig) (s : RTState) (time : ℚ) (t0 : ℚ),
      s.guideLostTime = some t0 → s.guideLostAlerted = true →
      (handleGuideState cfg s time "Guiding").2 = [RTEvent.guideRecovered time (time - t0)]) ∧
    (∀ (cfg : RTConfig) (s : RTState) (time : ℚ),
      s.guideLostAlerted = false → (handleGuideState cfg s time "Guiding").2 = []) ∧
    (∀ (cfg : RTConfig) (s : RTState) (time : ℚ),
      (handleGuideState cfg s time "Guiding").1.guideLostTime = none ∧
      (handleGuideState cfg s time "Guiding").1.guideLostAlerted = false ∧
      (handleGuideState cfg s time "Guiding").1.guidingActive = true) := by
  refine ⟨?_, ?_, ?_, ?_, ?_, ?_⟩
  · intro cfg s time st hst
    rcases hst with hst | hst <;> subst hst <;>
      constructor
    · intro ⟨ha, hn⟩
      simp only [handleGuideState]
      simp [ha, hn]
      split <;> simp
    · intro t0 h0
      by_cases ha : s.guidingActive = true ∧ s.guideLostTime = none
      · rw [ha.2] at h0; cases h0
      · simp only [handleGuideState]
        simp [ha, h0]
        split <;> simp
    · intro ⟨ha, hn⟩
      simp only [handleGuideState]
      simp [ha, hn]
      split <;> simp
    · intro t0 h0
      by_cases ha : s.guidingActive = true ∧ s.guideLostTime = none
      · rw [ha.2] at h0; cases h0
      · simp only [handleGuideState]
        simp [ha, h0]
        split <;> simp
  · intro cfg s time st t0 hst h0
    unfold lostStartAfter at h0
    rcases hst with hst | hst <;> subst hst <;>
    · by_cases ha : s.guidingActive = true ∧ s.guideLostTime = none
      · rw [if_pos ha] at h0
        injection h0 with h0
        subst h0
        by_cases he : s.guideLostAlerted = false ∧ time - time ≥ cfg.guideLostThreshold
        · have he2 : cfg.guideLostThreshold ≤ 0 := by
            have h3 := he.2
            rw [sub_self] at h3
            exact h3
          simp [handleGuideState, ha, he.1, he2, guideLostEvents, sub_self]
        · have he2 : ¬ (s.guideLostAlerted = false ∧ cfg.guideLostThreshold ≤ 0) := by
            intro ⟨x, y⟩
            exact he ⟨x, by rw [sub_self]; exact y⟩
          simp only [handleGuideState]
          simp [ha, guideLostEvents, sub_self, he2]
      · rw [if_neg ha] at h0
        by_cases he : s.guideLostAlerted = false ∧ time - t0 ≥ cfg.guideLostThreshold
        · simp [handleGuideState, ha, h0, he, he.1, he.2, guideLostEvents]
        · simp only [handleGuideState]
          simp [ha, h0, guideLostEvents, he]
  · intro cfg s time st hst
    have h1 : ¬ st = "Aborted" := fun h => hst (Or.inl h)
    have h2 : ¬ st = "Idle" := fun h => hst (Or.inr h)
    by_cases hg : st = "Guiding"
    · subst hg
      simp only [handleGuideState]
      cases h : s.guideLostTime <;> cases hb : s.guideLostAlerted <;>
        simp [guideLostEvents]
    · by_cases hr : st = "Reacquiring"
      · subst hr
        simp only [handleGuideState]
        have hng : ¬ ("Reacquiring" = "Guiding") := by decide
        rw [if_neg hng]
        simp only [if_true]
        split <;> simp [guideLostEvents]
      · simp [handleGuideState, hg, hr, h1, h2, guideLostEvents]
  · intro cfg s time t0 h0 ha
    simp [handleGuideState, h0, ha]
  · intro cfg s time ha
    cases h : s.guideLostTime <;> simp [handleGuideState, h, ha]
  · intro cfg s time
    cases h : s.guideLostTime <;> cases hb : s.guideLostAlerted <;>
      simp [handleGuideState, h, hb]

/-- C4 witness: concrete loss episode with recording, threshold emission,
transparency of other states, and recovery. -/
theorem guide_lost_recovered_witness :
    (handleGuideState {} {initRT with guidingActive := true} 50 "Aborted").1.guideLostTime
      = some 50 ∧
    guideLostEvents (handleGuideState {}
      {initRT with guidingActive := false, guideLostTime := some 50} 95 "Aborted").2
      = [(95, 45)] ∧
    guideLostEvents (handleGuideState {}
      {initRT with guidingActive := false, guideLostTime := some 50} 85 "Dithering").2 = [] ∧
    (handleGuideState {}
      {initRT with guideLostTime := some 50, guideLostAlerted := true} 120 "Guiding").2
      = [RTEvent.guideRecovered 120 70] := by
  refine ⟨?_, ?_, ?_, ?_⟩
  · exact ((guide_lost_recovered.1 {} {initRT with guidingActive := true} 50 "Aborted"
      (Or.inl rfl)).1 ⟨rfl, rfl⟩).1
  · have h := (guide_lost_recovered.2.1 {}
      {initRT with guidingActive := false, guideLostTime := some 50} 95 "Aborted" 50
      (Or.inl rfl) (by decide)).1
    rw [h]
    norm_num [initRT]
  · exact guide_lost_recovered.2.2.1 {}
      {initRT with guidingActive := false, guideLostTime := some 50} 85 "Dithering" (by decide)
  · have h := guide_lost_recovered.2.2.2.1 {}
      {initRT with guideLostTime := some 50, guideLostAlerted := true} 120 50 rfl rfl
    rw [h]
    norm_num [initRT]

/-- C4 counterexample: with the default 30-second threshold, after guiding
is lost at 50 the first GuideState event at time at least 80 is a
Dithering event at 85, which emits nothing; the single lost notification
fires only at the next Aborted event at 95.  The claim, which places the
notification at the first GuideState event of any state past the
threshold, is false. -/
theorem guide_lost_recovered_cex :
    guideLostEvents (processLines {} initRT
      ["GuideState,10,Guiding", "GuideState,50,Aborted", "GuideState,85,Dithering",
       "GuideState,95,Aborted"]).2 = [(95, 45)] ∧
    (processLine {} (processLines {} initRT
      ["GuideState,10,Guiding", "GuideState,50,Aborted"]).1 "GuideState,85,Dithering").2 = [] ∧
    (85 : ℚ) - 50 ≥ 30 ∧ (85 : ℚ) ≠ 95 := by
  refine ⟨?_, ?_, by norm_num, by norm_num⟩
  · norm_num +decide [processLines, processLine, handleGuideState, guideLostEvents, pyFloat,
      pystrip, pystripL, parseFloatCore, parseExpPart, natOfDigits, digitVal, isPySpace,
      splitCh, splitPAux, initRT]
  · norm_num +decide [processLines, processLine, handleGuideState, pyFloat,
      pystrip, pystripL, parseFloatCore, parseExpPart, natOfDigits, digitVal, isPySpace,
      splitCh, splitPAux, initRT]

/-! ## C5: frequent-reacquire rolling window -/

/-- C5 (amended): a Reacquiring transition appends the event time and prunes
the rolling window to times strictly inside the window length; exactly one
frequent_reacquire notification is emitted when the pruned count reaches
the threshold AND the time elapsed since the last alert time exceeds the
window length, where the last alert time starts at 0 — so the five
scenario events must lie beyond the first window length of the timeline
for the first alert to fire; firing arms the cooldown by recording the
alert time.  On the shifted Scenario C trace the fifth event alerts and a
sixth inside the cooldown does not. -/
theorem frequent_reacquire_window :
    (∀ (cfg : RTConfig) (s : RTState) (time : ℚ),
      (∀ t ∈ (handleGuideState cfg s time "Reacquiring").1.reacquireTimes,
        t > time - cfg.reacquireAlertWindow ∧ (t ∈ s.reacquireTimes ∨ t = time)) ∧
      (0 < cfg.reacquireAlertWindow →
        time ∈ (handleGuideState cfg s time "Reacquiring").1.reacquireTimes)) ∧
    (∀ (cfg : RTConfig) (s : RTState) (time : ℚ),
      freqReacquireEvents (handleGuideState cfg s time "Reacquiring").2 =
        (if ((s.reacquireTimes ++ [time]).filter
              (fun t => t > time - cfg.reacquireAlertWindow)).length ≥ cfg.reacquireAlertCount ∧
            time - s.reacquireAlertedAt > cfg.reacquireAlertWindow
         then [time] else []) ∧
      (handleGuideState cfg s time "Reacquiring").1.reacquireAlertedAt =
        (if ((s.reacquireTimes ++ [time]).filter
              (fun t => t > time - cfg.reacquireAlertWindow)).length ≥ cfg.reacquireAlertCount ∧
            time - s.reacquireAlertedAt > cfg.reacquireAlertWindow
         then time else s.reacquireAlertedAt)) ∧
    freqReacquireEvents (processLines {} initRT
      ["GuideState,400,Reacquiring", "GuideState,410,Reacquiring", "GuideState,420,Reacquiring",
       "GuideState,430,Reacquiring", "GuideState,440,Reacquiring",
       "GuideState,450,Reacquiring"]).2 = [440] := by
  have hng : ¬ ("Reacquiring" = "Guiding") := by decide
  refine ⟨?_, ?_, ?_⟩
  · intro cfg s time
    have hset : (handleGuideState cfg s time "Reacquiring").1.reacquireTimes =
        (s.reacquireTimes ++ [time]).filter
          (fun t => decide (t > time - cfg.reacquireAlertWindow)) := by
      simp only [handleGuideState]
      rw [if_neg hng]
      simp only [if_true]
      split <;> rfl
    constructor
    · intro t ht
      rw [hset] at ht
      simp only [List.mem_filter, List.mem_append, List.mem_singleton, decide_eq_true_eq] at ht
      exact ⟨ht.2, ht.1⟩
    · intro hw
      rw [hset]
      simp only [List.mem_filter, List.mem_append, List.mem_singleton, decide_eq_true_eq]
      exact ⟨Or.inr trivial, by linarith⟩
  · intro cfg s time
    by_cases hc : ((s.reacquireTimes ++ [time]).filter
          (fun t => t > time - cfg.reacquireAlertWindow)).length ≥ cfg.reacquireAlertCount ∧
        time - s.reacquireAlertedAt > cfg.reacquireAlertWindow
    · constructor <;>
      · simp only [handleGuideState]
        rw [if_neg hng]
        simp only [if_true]
        rw [if_pos hc, if_pos hc]
        try simp [freqReacquireEvents]
    · constructor <;>
      · simp only [handleGuideState]
        rw [if_neg hng]
        simp only [if_true]
        rw [if_neg hc, if_neg hc]
        try simp [freqReacquireEvents]
  · norm_num +decide [processLines, processLine, handleGuideState, freqReacquireEvents, pyFloat,
      pystrip, pystripL, parseFloatCore, parseExpPart, natOfDigits, digitVal, isPySpace,
      splitCh, splitPAux, initRT]

/-- C5 witness: the fifth in-window Reacquiring event past the initial
cooldown fires exactly one notification and records the alert time. -/
theorem frequent_reacquire_window_witness :
    freqReacquireEvents (handleGuideState {}
      {initRT with reacquireTimes := [400, 410, 420, 430]} 440 "Reacquiring").2 = [440] ∧
    (handleGuideState {} {initRT with reacquireTimes := [400, 410, 420, 430]} 440
      "Reacquiring").1.reacquireAlertedAt = 440 ∧
    (440 : ℚ) ∈ (handleGuideState {} {initRT with reacquireTimes := [400, 410, 420, 430]} 440
      "Reacquiring").1.reacquireTimes := by
  have h2 := (frequent_reacquire_window.2.1 {}
    {initRT with reacquireTimes := [400, 410, 420, 430]} 440)
  have hcond : (((({initRT with reacquireTimes := [400, 410, 420, 430]} : RTState).reacquireTimes
      ++ [440]).filter (fun t => t > (440 : ℚ) - ({} : RTConfig).reacquireAlertWindow)).length
        ≥ ({} : RTConfig).reacquireAlertCount ∧
      (440 : ℚ) - ({initRT with reacquireTimes := [400, 410, 420, 430]} : RTState).reacquireAlertedAt
        > ({} : RTConfig).reacquireAlertWindow) := by
    norm_num [initRT, List.filter]
  refine ⟨?_, ?_, ?_⟩
  · rw [h2.1, if_pos hcond]
  · rw [h2.2, if_pos hcond]
  · exact (frequent_reacquire_window.1 {}
      {initRT with reacquireTimes := [400, 410, 420, 430]} 440).2 (by norm_num)

/-- C5 counterexample: five Reacquiring events at 10..50 all lie within one
300-second window (threshold 5), yet no frequent_reacquire notification is
emitted, because the alert timestamp is initialized to 0 and the fifth
event time 50 does not exceed it by more than the window length.  The
claim, which requires exactly one notification on the fifth event, is
false. -/
theorem frequent_reacquire_window_cex :
    freqReacquireEvents (processLines {} initRT
      ["GuideState,10,Reacquiring", "GuideState,20,Reacquiring", "GuideState,30,Reacquiring",
       "GuideState,40,Reacquiring", "GuideState,50,Reacquiring"]).2 = [] ∧
    (50 : ℚ) - 10 ≤ 300 := by
  refine ⟨?_, by norm_num⟩
  norm_num +decide [processLines, processLine, handleGuideState, freqReacquireEvents, pyFloat,
    pystrip, pystripL, parseFloatCore, parseExpPart, natOfDigits, digitVal, isPySpace,
    splitCh, splitPAux, initRT]

/-! ## C3: autofocus HFR sample extraction -/

theorem collectSamples_sound (toks : List String) (m : HFRSample)
    (hm : m ∈ collectSamples toks) :
    (1 / 2 ≤ m.hfr ∧ m.hfr ≤ 20) ∧
    ∃ pre p h w o post, toks = pre ++ p :: h :: w :: o :: post ∧ 4 ∣ pre.length ∧
      pyInt p = some m.position ∧ pyFloat h = some m.hfr ∧ pyFloat w = some m.weight ∧
      pyInt o = some 0 := by
  induction toks using collectSamples.induct with
  | case1 p h w o rest ih =>
    rw [collectSamples] at hm
    rcases List.mem_append.mp hm with hl | hr
    · cases h1 : pyInt p with
      | none => rw [h1] at hl; simp at hl
      | some pos =>
        cases h2 : pyFloat h with
        | none => rw [h1, h2] at hl; simp at hl
        | some hfr =>
          cases h3 : pyFloat w with
          | none => rw [h1, h2, h3] at hl; simp at hl
          | some wt =>
            cases h4 : pyInt o with
            | none => rw [h1, h2, h3, h4] at hl; simp at hl
            | some ol =>
              rw [h1, h2, h3, h4] at hl
              dsimp only at hl
              by_cases hc : ol = 0 ∧ 1 / 2 ≤ hfr ∧ hfr ≤ 20
              · rw [if_pos hc] at hl
                rw [List.mem_singleton] at hl
                subst hl
                refine ⟨⟨hc.2.1, hc.2.2⟩,
                  [], p, h, w, o, rest, rfl, ⟨0, rfl⟩, h1, h2, h3, ?_⟩
                rw [h4, hc.1]
              · rw [if_neg hc] at hl
                simp at hl
    · obtain ⟨hrange, pre, p', h', w', o', post, heq, hdvd, hp, hh, hw, ho⟩ := ih hr
      refine ⟨hrange, p :: h :: w :: o :: pre, p', h', w', o', post, by simp [heq], ?_,
        hp, hh, hw, ho⟩
      obtain ⟨k, hk⟩ := hdvd
      exact ⟨k + 1, by simp [hk]; ring⟩
  | case2 t ht =>
    exfalso
    match t, hm, ht with
    | [], hm, _ => simp [collectSamples] at hm
    | [a], hm, _ => simp [collectSamples] at hm
    | [a, b], hm, _ => simp [collectSamples] at hm
    | [a, b, c], hm, _ => simp [collectSamples] at hm
    | a :: b :: c :: d :: r, _, ht => exact ht a b c d r rfl

theorem collectSamples_complete (n : Nat) :
    ∀ (pre : List String), pre.length = 4 * n →
    ∀ (p h w o : String) (post : List String) (pos : ℤ) (hfr wt : ℚ),
      pyInt p = some pos → pyFloat h = some hfr → pyFloat w = some wt → pyInt o = some 0 →
      1 / 2 ≤ hfr → hfr ≤ 20 →
      (⟨pos, hfr, wt⟩ : HFRSample) ∈ collectSamples (pre ++ p :: h :: w :: o :: post) := by
  induction n with
  | zero =>
    intro pre hlen p h w o post pos hfr wt hp hh hw ho hge hle
    have : pre = [] := List.eq_nil_of_length_eq_zero (by omega)
    subst this
    rw [List.nil_append, collectSamples, hp, hh, hw, ho]
    dsimp only
    rw [if_pos ⟨rfl, hge, hle⟩]
    simp
  | succ k ih =>
    intro pre hlen p h w o post pos hfr wt hp hh hw ho hge hle
    match pre, hlen with
    | a :: b :: c :: d :: pre', hlen =>
      have hlen' : pre'.length = 4 * k := by
        simp at hlen
        omega
      have := ih pre' hlen' p h w o post pos hfr wt hp hh hw ho hge hle
      rw [List.cons_append, List.cons_append, List.cons_append, List.cons_append,
        collectSamples]
      exact List.mem_append_right _ this

theorem pyMinBy_mem (x : HFRSample) (xs : List HFRSample) : pyMinBy x xs ∈ x :: xs := by
  induction xs generalizing x with
  | nil => simp [pyMinBy]
  | cons y ys ih =>
    rw [pyMinBy, List.foldl_cons]
    have h := ih (if y.hfr < x.hfr then y else x)
    rw [pyMinBy] at h
    rcases List.mem_cons.mp h with h | h
    · rw [h]
      by_cases hc : y.hfr < x.hfr <;> simp [hc]
    · simp [List.mem_cons.mpr (Or.inr h)]

theorem pyMinBy_le (x : HFRSample) (xs : List HFRSample) :
    ∀ y ∈ x :: xs, (pyMinBy x xs).hfr ≤ y.hfr := by
  induction xs generalizing x with
  | nil =>
    intro y hy
    rw [List.mem_singleton] at hy
    subst hy
    simp [pyMinBy]
  | cons z zs ih =>
    intro y hy
    rw [pyMinBy, List.foldl_cons]
    have h := ih (if z.hfr < x.hfr then z else x)
    rw [pyMinBy] at h
    rcases List.mem_cons.mp hy with hy | hy
    · rw [hy]
      have h1 := h (if z.hfr < x.hfr then z else x) (List.mem_cons_self _ _)
      by_cases hc : z.hfr < x.hfr
      · rw [if_pos hc] at h1 ⊢
        exact le_trans h1 (le_of_lt hc)
      · rw [if_neg hc] at h1 ⊢
        exact h1
    · rcases List.mem_cons.mp hy with hy | hy
      · rw [hy]
        have h1 := h (if z.hfr < x.hfr then z else x) (List.mem_cons_self _ _)
        by_cases hc : z.hfr < x.hfr
        · rw [if_pos hc] at h1 ⊢
          exact h1
        · rw [if_neg hc] at h1 ⊢
          exact le_trans h1 (le_of_not_lt hc)
      · exact h y (List.mem_cons_of_mem _ hy)

theorem setBestHfr_spec (af : BAutofocus) :
    (setBestHfr af).hfrValues = af.hfrValues ∧
    (setBestHfr af).focusPosition = af.focusPosition ∧
    (af.hfrValues = [] → (setBestHfr af).bestHfr = af.bestHfr) ∧
    (af.hfrValues ≠ [] →
      ((∃ fp, af.focusPosition = some fp ∧ fp ≠ 0 ∧ ∃ m ∈ af.hfrValues, m.position = fp) →
        ∃ m ∈ af.hfrValues,
          (∃ fp, af.focusPosition = some fp ∧ m.position = fp) ∧
          (setBestHfr af).bestHfr = some m.hfr) ∧
      (¬ (∃ fp, af.focusPosition = some fp ∧ fp ≠ 0 ∧ ∃ m ∈ af.hfrValues, m.position = fp) →
        ∃ m ∈ af.hfrValues, (setBestHfr af).bestHfr = some m.hfr ∧
          ∀ m' ∈ af.hfrValues, m.hfr ≤ m'.hfr)) := by
  obtain ⟨ts, ev, fl, tp, st, sol, raw, vals, best, fpos⟩ := af
  cases vals with
  | nil => exact ⟨rfl, rfl, fun _ => rfl, fun hne => absurd rfl hne⟩
  | cons x xs =>
    refine ⟨rfl, rfl, fun h => by simp at h, fun _ => ⟨?_, ?_⟩⟩
    · rintro ⟨fp, hfp, hfp0, m, hmem, hmpos⟩
      simp only at hfp
      subst hfp
      have hfind : ((x :: xs).find? (fun (mm : HFRSample) => decide (mm.position = fp))).isSome := by
        rw [List.find?_isSome]
        exact ⟨m, hmem, by simpa using hmpos⟩
      obtain ⟨m0, hm0⟩ := Option.isSome_iff_exists.mp hfind
      refine ⟨m0, List.mem_of_find?_eq_some hm0,
        ⟨fp, rfl, by simpa using List.find?_some hm0⟩, ?_⟩
      simp only [setBestHfr]
      rw [if_pos hfp0, hm0]
    · intro hno
      cases fpos with
      | none =>
        refine ⟨pyMinBy x xs, pyMinBy_mem x xs, ?_, pyMinBy_le x xs⟩
        simp only [setBestHfr]
      | some fp =>
        by_cases hfp0 : fp ≠ 0
        · cases hfind : (x :: xs).find? (fun (mm : HFRSample) => decide (mm.position = fp)) with
          | none =>
            refine ⟨pyMinBy x xs, pyMinBy_mem x xs, ?_, pyMinBy_le x xs⟩
            simp only [setBestHfr]
            rw [if_pos hfp0, hfind]
          | some m0 =>
            exfalso
            refine hno ⟨fp, rfl, hfp0, m0, List.mem_of_find?_eq_some hfind, ?_⟩
            simpa using List.find?_some hfind
        · refine ⟨pyMinBy x xs, pyMinBy_mem x xs, ?_, pyMinBy_le x xs⟩
          simp only [setBestHfr]
          rw [if_neg hfp0]

theorem extract_eq (af : BAutofocus) (sec : String)
    (h1 : ¬ (sec = "" ∨ ¬ containsSub "|" sec = true)) :
    ∃ fpv, extractHfrFromDataSection af sec
      = setBestHfr
          {af with
            focusPosition := fpv,
            hfrValues := af.hfrValues ++ collectSamples (splitCh '|' sec)} := by
  obtain ⟨ts, ev, fl, tp, st, sol, raw, vals, best, fpos⟩ := af
  unfold extractHfrFromDataSection
  rw [if_neg h1]
  cases sol with
  | none => exact ⟨fpos, rfl⟩
  | some s0 =>
    dsimp only
    by_cases hsol : s0 ≠ ""
    · rw [if_pos hsol]
      cases findSolution s0 with
      | none => exact ⟨fpos, rfl⟩
      | some fp => exact ⟨some fp, rfl⟩
    · rw [if_neg hsol]
      exact ⟨fpos, rfl⟩

/-- C3 (amended): reading the pipe-delimited data section in aligned groups
of four, a sample is collected exactly from the quadruples whose position
and outlier flag parse as ints, whose hfr and weight parse as floats, with
outlier flag 0 and hfr between 0.5 and 20.0.  With no collected sample the
best hfr is unchanged; otherwise, when a NONZERO focus position was
extracted from the Solution substring and some sample sits exactly at that
position, the best hfr is that sample's hfr, and in every other case
(including a focus position of exactly 0, which Python truthiness ignores)
it is the minimum hfr among the collected samples. -/
theorem autofocus_hfr_extraction (af : BAutofocus) (sec : String)
    (hinit : af.hfrValues = []) (hne : sec ≠ "") (hbar : containsSub "|" sec = true) :
    (∀ m ∈ (extractHfrFromDataSection af sec).hfrValues,
      (1 / 2 ≤ m.hfr ∧ m.hfr ≤ 20) ∧
      ∃ pre p h w o post, splitCh '|' sec = pre ++ p :: h :: w :: o :: post ∧
        4 ∣ pre.length ∧ pyInt p = some m.position ∧ pyFloat h = some m.hfr ∧
        pyFloat w = some m.weight ∧ pyInt o = some 0) ∧
    (∀ (pre : List String) (p h w o : String) (post : List String) (pos : ℤ) (hfr wt : ℚ),
      splitCh '|' sec = pre ++ p :: h :: w :: o :: post → 4 ∣ pre.length →
      pyInt p = some pos → pyFloat h = some hfr → pyFloat w = some wt → pyInt o = some 0 →
      1 / 2 ≤ hfr → hfr ≤ 20 →
      (⟨pos, hfr, wt⟩ : HFRSample) ∈ (extractHfrFromDataSection af sec).hfrValues) ∧
    ((extractHfrFromDataSection af sec).hfrValues = [] →
      (extractHfrFromDataSection af sec).bestHfr = af.bestHfr) ∧
    ((extractHfrFromDataSection af sec).hfrValues ≠ [] →
      ((∃ fp, (extractHfrFromDataSection af sec).focusPosition = some fp ∧ fp ≠ 0 ∧
          ∃ m ∈ (extractHfrFromDataSection af sec).hfrValues, m.position = fp) →
        ∃ m ∈ (extractHfrFromDataSection af sec).hfrValues,
          (∃ fp, (extractHfrFromDataSection af sec).focusPosition = some fp ∧
            m.position = fp) ∧
          (extractHfrFromDataSection af sec).bestHfr = some m.hfr) ∧
      (¬ (∃ fp, (extractHfrFromDataSection af sec).focusPosition = some fp ∧ fp ≠ 0 ∧
          ∃ m ∈ (extractHfrFromDataSection af sec).hfrValues, m.position = fp) →
        ∃ m ∈ (extractHfrFromDataSection af sec).hfrValues,
          (extractHfrFromDataSection af sec).bestHfr = some m.hfr ∧
          ∀ m' ∈ (extractHfrFromDataSection af sec).hfrValues, m.hfr ≤ m'.hfr)) := by
  have hcond : ¬ (sec = "" ∨ ¬ containsSub "|" sec = true) := by
    intro h
    rcases h with h | h
    · exact hne h
    · exact h hbar
  obtain ⟨fpv, heq⟩ := extract_eq af sec hcond
  have hspec := setBestHfr_spec
    {af with
      focusPosition := fpv,
      hfrValues := af.hfrValues ++ collectSamples (splitCh '|' sec)}
  rw [← heq] at hspec
  obtain ⟨hvals, hfpos, hbase, hrest⟩ := hspec
  dsimp only at hvals hfpos hbase hrest
  rw [hinit, List.nil_append] at hvals hbase hrest
  refine ⟨?_, ?_, ?_, ?_⟩
  · intro m hm
    rw [hvals] at hm
    exact collectSamples_sound _ m hm
  · intro pre p h w o post pos hfr wt hsplit hdvd hp hh hw ho hge hle
    rw [hvals, hsplit]
    obtain ⟨k, hk⟩ := hdvd
    exact collectSamples_complete k pre hk p h w o post pos hfr wt hp hh hw ho hge hle
  · intro hempty
    rw [hvals] at hempty
    exact hbase hempty
  · intro hnon
    rw [hvals] at hnon
    have hr := hrest hnon
    constructor
    · intro hex
      rw [hvals, hfpos] at hex
      rw [hvals, hfpos]
      exact hr.1 hex
    · intro hnex
      rw [hvals, hfpos] at hnex
      rw [hvals]
      exact hr.2 hnex

/-- Concrete autofocus record used to exercise the extraction. -/
def c3Af (solText : String) : BAutofocus :=
  {timestamp := 5, event := "complete", temperature := 1, filterName := "L",
   solution := some solText}

/-- C3 witness: on a concrete data section a well-formed in-range quadruple
is collected, an out-of-range one is not, and the nonzero solution position
selects that sample's hfr as best. -/
theorem autofocus_hfr_extraction_witness :
    ((⟨100, 2, 2⟩ : HFRSample) ∈
      (extractHfrFromDataSection (c3Af "Hyperbola Solution: 100 R")
        "0|1.5|1.5|0|100|2.0|2.0|0").hfrValues) ∧
    (∃ m ∈ (extractHfrFromDataSection (c3Af "Hyperbola Solution: 100 R")
        "0|1.5|1.5|0|100|2.0|2.0|0").hfrValues,
      (∃ fp, (extractHfrFromDataSection (c3Af "Hyperbola Solution: 100 R")
        "0|1.5|1.5|0|100|2.0|2.0|0").focusPosition = some fp ∧ m.position = fp) ∧
      (extractHfrFromDataSection (c3Af "Hyperbola Solution: 100 R")
        "0|1.5|1.5|0|100|2.0|2.0|0").bestHfr = some m.hfr) := by
  have hth := autofocus_hfr_extraction (c3Af "Hyperbola Solution: 100 R")
    "0|1.5|1.5|0|100|2.0|2.0|0" rfl (by decide) (by decide)
  have hf15 : pyFloat "1.5" = some (3 / 2) := by
    norm_num +decide [pyFloat, pystripL, parseFloatCore, parseExpPart, natOfDigits, digitVal,
      isPySpace]
  have hf20 : pyFloat "2.0" = some 2 := by
    norm_num +decide [pyFloat, pystripL, parseFloatCore, parseExpPart, natOfDigits, digitVal,
      isPySpace]
  have hmem : (⟨100, 2, 2⟩ : HFRSample) ∈
      (extractHfrFromDataSection (c3Af "Hyperbola Solution: 100 R")
        "0|1.5|1.5|0|100|2.0|2.0|0").hfrValues := by
    refine hth.2.1 ["0", "1.5", "1.5", "0"] "100" "2.0" "2.0" "0" [] 100 2 2
      (by decide) (by decide) (by decide) hf20 hf20 (by decide) (by norm_num) (by norm_num)
  refine ⟨hmem, ?_⟩
  have hfp : (extractHfrFromDataSection (c3Af "Hyperbola Solution: 100 R")
      "0|1.5|1.5|0|100|2.0|2.0|0").focusPosition = some 100 := by
    norm_num +decide [extractHfrFromDataSection, c3Af, setBestHfr, collectSamples, pyMinBy,
      findSolution, findSolutionAux, natOfDigits, digitVal, containsSub, containsSubL,
      splitCh, splitPAux, pyInt, pyFloat, pystripL, parseFloatCore, parseExpPart, isPySpace]
  exact (hth.2.2.2 (by intro h; rw [h] at hmem; simp at hmem)).1
    ⟨100, hfp, by norm_num, ⟨100, 2, 2⟩, hmem, rfl⟩

/-- C3 counterexample: with the solution substring Solution-colon-0 a focus
position 0 is extracted and a collected sample sits exactly at position 0
with hfr 3, yet the best hfr is the global minimum 2, not that sample's 3:
Python truthiness skips the position preference for a focus position of 0,
so the claim as stated is false. -/
theorem autofocus_hfr_extraction_cex :
    (extractHfrFromDataSection (c3Af "Hyperbola Solution: 0 R")
      "0|3.0|3.0|0|100|2.0|2.0|0").focusPosition = some 0 ∧
    (extractHfrFromDataSection (c3Af "Hyperbola Solution: 0 R")
      "0|3.0|3.0|0|100|2.0|2.0|0").hfrValues =
        [⟨0, 3, 3⟩, ⟨100, 2, 2⟩] ∧
    (extractHfrFromDataSection (c3Af "Hyperbola Solution: 0 R")
      "0|3.0|3.0|0|100|2.0|2.0|0").bestHfr = some 2 ∧
    ((3 : ℚ) ≠ 2) := by
  refine ⟨?_, ?_, ?_, by norm_num⟩ <;>
    norm_num +decide [extractHfrFromDataSection, c3Af, setBestHfr, collectSamples, pyMinBy,
      findSolution, findSolutionAux, natOfDigits, digitVal, containsSub, containsSubL,
      splitCh, splitPAux, pyInt, pyFloat, pystripL, parseFloatCore, parseExpPart, isPySpace]

/-! ## C7: sub-session segmentation -/

theorem segGo_join (l : List BCapture) : ∀ (prev : BCapture) (cur : List BCapture),
    (segGo prev cur l).flatten = cur ++ l := by
  induction l with
  | nil => intro prev cur; simp [segGo]
  | cons c cs ih =>
    intro prev cur
    rw [segGo]
    by_cases hc : c.timestamp - prev.timestamp > 1800
    · rw [if_pos hc]
      simp [ih]
    · rw [if_neg hc]
      simp [ih]

theorem segGo_nonempty (l : List BCapture) : ∀ (prev : BCapture) (cur : List BCapture),
    cur ≠ [] → ∀ sub ∈ segGo prev cur l, sub ≠ [] := by
  induction l with
  | nil =>
    intro prev cur hcur sub hsub
    rw [segGo, List.mem_singleton] at hsub
    rwa [hsub]
  | cons c cs ih =>
    intro prev cur hcur sub hsub
    rw [segGo] at hsub
    by_cases hc : c.timestamp - prev.timestamp > 1800
    · rw [if_pos hc] at hsub
      rcases List.mem_cons.mp hsub with h | h
      · rwa [h]
      · exact ih c [c] (by simp) sub h
    · rw [if_neg hc] at hsub
      exact ih c (cur ++ [c]) (by simp) sub hsub

theorem segGo_head (l : List BCapture) : ∀ (prev : BCapture) (cur : List BCapture),
    cur ≠ [] → ∃ sub rest, segGo prev cur l = sub :: rest ∧ sub.head? = cur.head? := by
  induction l with
  | nil => intro prev cur _; exact ⟨cur, [], by rw [segGo], rfl⟩
  | cons c cs ih =>
    intro prev cur hcur
    rw [segGo]
    by_cases hc : c.timestamp - prev.timestamp > 1800
    · rw [if_pos hc]
      exact ⟨cur, segGo c [c] cs, rfl, rfl⟩
    · rw [if_neg hc]
      obtain ⟨sub, rest, heq, hhead⟩ := ih c (cur ++ [c]) (by simp)
      refine ⟨sub, rest, heq, ?_⟩
      rw [hhead]
      cases cur with
      | nil => exact absurd rfl hcur
      | cons a as => simp

theorem segGo_chain (l : List BCapture) : ∀ (prev : BCapture) (cur : List BCapture),
    List.Chain' (fun a b => b.timestamp - a.timestamp ≤ 1800) cur →
    cur.getLast? = some prev →
    ∀ sub ∈ segGo prev cur l,
      List.Chain' (fun a b => b.timestamp - a.timestamp ≤ 1800) sub := by
  induction l with
  | nil =>
    intro prev cur hch _ sub hsub
    rw [segGo, List.mem_singleton] at hsub
    rwa [hsub]
  | cons c cs ih =>
    intro prev cur hch hlast sub hsub
    rw [segGo] at hsub
    by_cases hc : c.timestamp - prev.timestamp > 1800
    · rw [if_pos hc] at hsub
      rcases List.mem_cons.mp hsub with h | h
      · rwa [h]
      · exact ih c [c] (by simp) rfl sub h
    · rw [if_neg hc] at hsub
      refine ih c (cur ++ [c]) ?_ (by simp) sub hsub
      rw [List.chain'_append]
      refine ⟨hch, List.chain'_singleton _, ?_⟩
      intro x hx y hy
      rw [hlast] at hx
      simp at hx hy
      subst hx
      subst hy
      exact le_of_not_lt hc

theorem segGo_boundaries (l : List BCapture) : ∀ (prev : BCapture) (cur : List BCapture),
    cur.getLast? = some prev →
    List.Chain' (fun s1 s2 => ∃ x y, s1.getLast? = some x ∧ s2.head? = some y ∧
      y.timestamp - x.timestamp > 1800) (segGo prev cur l) := by
  induction l with
  | nil => intro prev cur _; rw [segGo]; exact List.chain'_singleton _
  | cons c cs ih =>
    intro prev cur hlast
    rw [segGo]
    by_cases hc : c.timestamp - prev.timestamp > 1800
    · rw [if_pos hc]
      rw [List.chain'_cons']
      refine ⟨?_, ih c [c] rfl⟩
      intro s2 hs2
      obtain ⟨sub, rest, heq, hhead⟩ := segGo_head cs c [c] (by simp)
      rw [heq] at hs2
      simp at hs2
      subst hs2
      exact ⟨prev, c, hlast, hhead, hc⟩
    · rw [if_neg hc]
      exact ih c (cur ++ [c]) (by simp)

/-- C7: after sorting a filter's completed captures by timestamp, the
detected sub-sessions partition the sorted list in order, every
sub-session is nonempty, consecutive captures inside one sub-session are
at most 1800 seconds apart, and across a sub-session boundary the gap from
the last capture of one sub-session to the first of the next exceeds 1800
seconds. -/
theorem sub_session_segmentation (caps : List BCapture) :
    (segmentCaptures (sortByKey BCapture.timestamp caps)).flatten
        = sortByKey BCapture.timestamp caps ∧
    (∀ sub ∈ segmentCaptures (sortByKey BCapture.timestamp caps), sub ≠ []) ∧
    (∀ sub ∈ segmentCaptures (sortByKey BCapture.timestamp caps),
      List.Chain' (fun a b => b.timestamp - a.timestamp ≤ 1800) sub) ∧
    List.Chain' (fun s1 s2 => ∃ x y, s1.getLast? = some x ∧ s2.head? = some y ∧
      y.timestamp - x.timestamp > 1800)
      (segmentCaptures (sortByKey BCapture.timestamp caps)) := by
  cases hs : sortByKey BCapture.timestamp caps with
  | nil => simp [segmentCaptures]
  | cons c cs =>
    rw [segmentCaptures]
    exact ⟨by rw [segGo_join]; rfl, segGo_nonempty cs c [c] (by simp),
      segGo_chain cs c [c] (List.chain'_singleton _) rfl,
      segGo_boundaries cs c [c] rfl⟩

/-- Concrete capture list used to exercise the segmentation. -/
def c7caps : List BCapture :=
  [{timestamp := 0, event := "complete", exposure := 60, filterName := "L"},
   {timestamp := 100, event := "complete", exposure := 60, filterName := "L"},
   {timestamp := 2000, event := "complete", exposure := 60, filterName := "L"}]

/-- C7 witness: on captures at 0, 100 and 2000 the partition property and
the within-sub-session gap bound hold for the concrete sub-session made of
the first two captures (the 1900-second gap splits before the third). -/
theorem sub_session_segmentation_witness :
    (segmentCaptures (sortByKey BCapture.timestamp c7caps)).flatten
      = sortByKey BCapture.timestamp c7caps ∧
    List.Chain' (fun a b => b.timestamp - a.timestamp ≤ 1800)
      [({timestamp := 0, event := "complete", exposure := 60, filterName := "L"} : BCapture),
       {timestamp := 100, event := "complete", exposure := 60, filterName := "L"}] := by
  have hseg : segmentCaptures (sortByKey BCapture.timestamp c7caps) =
      [[{timestamp := 0, event := "complete", exposure := 60, filterName := "L"},
        {timestamp := 100, event := "complete", exposure := 60, filterName := "L"}],
       [{timestamp := 2000, event := "complete", exposure := 60, filterName := "L"}]] := by
    norm_num [c7caps, sortByKey, insertByKey, segmentCaptures, segGo]
  refine ⟨(sub_session_segmentation c7caps).1, ?_⟩
  apply (sub_session_segmentation c7caps).2.2.1
  rw [hseg]
  simp

/-! ## C6: per-capture scheduler-job attribution -/

theorem mem_insertByKey {α : Type} (key : α → ℚ) (x a : α) (l : List α) :
    a ∈ insertByKey key x l ↔ a = x ∨ a ∈ l := by
  induction l with
  | nil => simp [insertByKey]
  | cons y ys ih =>
    rw [insertByKey]
    by_cases hc : key x ≤ key y
    · rw [if_pos hc]
      simp
    · rw [if_neg hc]
      rw [List.mem_cons, ih]
      simp
      tauto

theorem mem_sortByKey {α : Type} (key : α → ℚ) (a : α) (l : List α) :
    a ∈ sortByKey key l ↔ a ∈ l := by
  induction l with
  | nil => simp [sortByKey]
  | cons x xs ih =>
    rw [sortByKey, mem_insertByKey, ih]
    simp

theorem sorted_insertByKey {α : Type} (key : α → ℚ) (x : α) (l : List α)
    (h : List.Pairwise (fun a b => key a ≤ key b) l) :
    List.Pairwise (fun a b => key a ≤ key b) (insertByKey key x l) := by
  induction l with
  | nil => simp [insertByKey]
  | cons y ys ih =>
    rw [insertByKey]
    rcases List.pairwise_cons.mp h with ⟨hy, hys⟩
    by_cases hc : key x ≤ key y
    · rw [if_pos hc]
      rw [List.pairwise_cons]
      refine ⟨?_, h⟩
      intro b hb
      rcases List.mem_cons.mp hb with hb | hb
      · rw [hb]; exact hc
      · exact le_trans hc (hy b hb)
    · rw [if_neg hc]
      rw [List.pairwise_cons]
      refine ⟨?_, ih hys⟩
      intro b hb
      rcases (mem_insertByKey key x b ys).mp hb with hb | hb
      · rw [hb]; exact le_of_not_le hc
      · exact hy b hb

theorem sorted_sortByKey {α : Type} (key : α → ℚ) (l : List α) :
    List.Pairwise (fun a b => key a ≤ key b) (sortByKey key l) := by
  induction l with
  | nil => simp [sortByKey]
  | cons x xs ih => exact sorted_insertByKey key x _ ih

theorem findActiveJob_none (cts : ℚ) (l : List BJob)
    (hs : List.Pairwise (fun a b => a.timestamp ≤ b.timestamp) l)
    (h : findActiveJob cts l = none) : ∀ k ∈ l, cts < k.timestamp := by
  cases l with
  | nil => intro k hk; simp at hk
  | cons j js =>
    rw [findActiveJob] at h
    by_cases hc : j.timestamp ≤ cts
    · rw [if_pos hc] at h; cases h
    · intro k hk
      rcases List.mem_cons.mp hk with hk | hk
      · rw [hk]; exact lt_of_not_le hc
      · rcases List.pairwise_cons.mp hs with ⟨hj, _⟩
        exact lt_of_lt_of_le (lt_of_not_le hc) (hj k hk)

theorem findActiveJob_spec (cts : ℚ) (l : List BJob)
    (hs : List.Pairwise (fun a b => a.timestamp ≤ b.timestamp) l) :
    ∀ j, findActiveJob cts l = some j →
      j ∈ l ∧ j.timestamp ≤ cts ∧
      ∀ k ∈ l, k.timestamp ≤ cts → k.timestamp ≤ j.timestamp := by
  induction l with
  | nil => intro j h; cases h
  | cons j0 js ih =>
    intro j h
    rw [findActiveJob] at h
    rcases List.pairwise_cons.mp hs with ⟨hj0, hjs⟩
    by_cases hc : j0.timestamp ≤ cts
    · rw [if_pos hc] at h
      injection h with h
      cases hfind : findActiveJob cts js with
      | none =>
        rw [hfind] at h
        simp at h
        subst h
        refine ⟨List.mem_cons_self _ _, hc, ?_⟩
        intro k hk hkle
        rcases List.mem_cons.mp hk with hk | hk
        · rw [hk]
        · exact absurd hkle (not_le_of_lt (findActiveJob_none cts js hjs hfind k hk))
      | some j' =>
        rw [hfind] at h
        simp at h
        subst h
        obtain ⟨hmem, hle, hmax⟩ := ih hjs j' hfind
        refine ⟨List.mem_cons_of_mem _ hmem, hle, ?_⟩
        intro k hk hkle
        rcases List.mem_cons.mp hk with hk | hk
        · rw [hk]; exact hj0 j' hmem
        · exact hmax k hk hkle
    · rw [if_neg hc] at h
      cases h

/-- C6 (amended): a completed capture is attributed to a scheduler job
whose start timestamp is the latest one not after the capture timestamp
within the session, except that a job recorded with an EMPTY object name
falls through (Python or-fallback) to the file-name derived session name;
when no job start precedes the capture, the earliest-starting job is used
(same empty-name proviso); when the session has no job start events the
file-name fallback is used directly, and that fallback is
Session_<date> only for files named ekos-<date>..., otherwise the literal
Unknown.  On Scenario E the capture at 100 is attributed to M31 and the
capture at 600 to M33. -/
theorem object_attribution :
    (∀ (c : BCapture) (jobs : List BJob) (fp : String),
      (∃ jw ∈ jobs.filter (fun (j : BJob) => decide (j.event = "start")),
        jw.timestamp ≤ c.timestamp) →
      ∃ j, j ∈ jobs.filter (fun (j : BJob) => decide (j.event = "start")) ∧
        j.timestamp ≤ c.timestamp ∧
        (∀ k ∈ jobs.filter (fun (j : BJob) => decide (j.event = "start")),
          k.timestamp ≤ c.timestamp → k.timestamp ≤ j.timestamp) ∧
        objNameForCapture c jobs fp
          = (if j.objectName ≠ "" then j.objectName else extractObjectName fp)) ∧
    (∀ (c : BCapture) (jobs : List BJob) (fp : String),
      jobs.filter (fun (j : BJob) => decide (j.event = "start")) ≠ [] →
      (∀ k ∈ jobs.filter (fun (j : BJob) => decide (j.event = "start")),
        c.timestamp < k.timestamp) →
      ∃ j, j ∈ jobs.filter (fun (j : BJob) => decide (j.event = "start")) ∧
        (∀ k ∈ jobs.filter (fun (j : BJob) => decide (j.event = "start")),
          j.timestamp ≤ k.timestamp) ∧
        objNameForCapture c jobs fp
          = (if j.objectName ≠ "" then j.objectName else extractObjectName fp)) ∧
    (∀ (c : BCapture) (jobs : List BJob) (fp : String),
      jobs.filter (fun (j : BJob) => decide (j.event = "start")) = [] →
      objNameForCapture c jobs fp = extractObjectName fp) ∧
    (objNameForCapture {timestamp := 100, event := "complete", exposure := 60, filterName := "R"}
      [{timestamp := 0, event := "start", objectName := "M31"},
       {timestamp := 500, event := "start", objectName := "M33"}] "f.analyze" = "M31" ∧
     objNameForCapture {timestamp := 600, event := "complete", exposure := 60, filterName := "R"}
      [{timestamp := 0, event := "start", objectName := "M31"},
       {timestamp := 500, event := "start", objectName := "M33"}] "f.analyze" = "M33") ∧
    (extractObjectName "/a/b/ekos-2025-01-01.analyze" = "Session_2025-01-01" ∧
     extractObjectName "/a/b/session.analyze" = "Unknown") := by
  refine ⟨?_, ?_, ?_, ?_, by constructor <;> decide⟩
  · intro c jobs fp ⟨jw, hjwmem, hjwle⟩
    have hjobs : ¬ jobs = [] := by
      intro h
      rw [h] at hjwmem
      simp at hjwmem
    have hsorted := sorted_sortByKey BJob.timestamp
      (jobs.filter (fun (j : BJob) => decide (j.event = "start")))
    cases hL : sortByKey BJob.timestamp
        (jobs.filter (fun (j : BJob) => decide (j.event = "start"))) with
    | nil =>
      exfalso
      have := (mem_sortByKey BJob.timestamp jw _).mpr hjwmem
      rw [hL] at this
      simp at this
    | cons j0 rest =>
      rw [hL] at hsorted
      cases hfind : findActiveJob c.timestamp (j0 :: rest) with
      | none =>
        exfalso
        have hlt := findActiveJob_none c.timestamp (j0 :: rest) hsorted hfind jw
          (by rw [← hL, mem_sortByKey]; exact hjwmem)
        exact absurd hjwle (not_le_of_lt hlt)
      | some j =>
        obtain ⟨hmem, hle, hmax⟩ := findActiveJob_spec c.timestamp (j0 :: rest) hsorted j hfind
        refine ⟨j, ?_, hle, ?_, ?_⟩
        · rw [← mem_sortByKey BJob.timestamp, hL]
          exact hmem
        · intro k hk hkle
          refine hmax k ?_ hkle
          rw [← hL, mem_sortByKey]
          exact hk
        · rw [objNameForCapture, getObjectNameForCapture, if_neg hjobs, hL]
          dsimp only
          rw [hfind]
  · intro c jobs fp hne hafter
    have hjobs : ¬ jobs = [] := by
      intro h
      rw [h] at hne
      simp at hne
    have hsorted := sorted_sortByKey BJob.timestamp
      (jobs.filter (fun (j : BJob) => decide (j.event = "start")))
    cases hL : sortByKey BJob.timestamp
        (jobs.filter (fun (j : BJob) => decide (j.event = "start"))) with
    | nil =>
      exfalso
      rcases List.exists_mem_of_ne_nil _ hne with ⟨jw, hjw⟩
      have := (mem_sortByKey BJob.timestamp jw _).mpr hjw
      rw [hL] at this
      simp at this
    | cons j0 rest =>
      rw [hL] at hsorted
      have hj0mem : j0 ∈ jobs.filter (fun (j : BJob) => decide (j.event = "start")) := by
        rw [← mem_sortByKey BJob.timestamp, hL]
        exact List.mem_cons_self _ _
      have hfind : findActiveJob c.timestamp (j0 :: rest) = none := by
        rw [findActiveJob, if_neg (not_le_of_lt (hafter j0 hj0mem))]
      refine ⟨j0, hj0mem, ?_, ?_⟩
      · intro k hk
        have hkL := (mem_sortByKey BJob.timestamp k _).mpr hk
        rw [hL] at hkL
        rcases List.mem_cons.mp hkL with hkL | hkL
        · rw [hkL]
        · exact (List.pairwise_cons.mp hsorted).1 k hkL
      · rw [objNameForCapture, getObjectNameForCapture, if_neg hjobs, hL]
        dsimp only
        rw [hfind]
  · intro c jobs fp hempty
    by_cases hjobs : jobs = []
    · rw [objNameForCapture, getObjectNameForCapture, if_pos hjobs]
    · rw [objNameForCapture, getObjectNameForCapture, if_neg hjobs, hempty]
      rfl
  · constructor <;>
      norm_num +decide [objNameForCapture, getObjectNameForCapture, findActiveJob, sortByKey,
        insertByKey, extractObjectName, matchEkosDate, splitCh, splitPAux]

/-- C6 witness: the Scenario E capture at 600 is attributed through the
latest preceding job start, and a session without job-start events falls
back to the file-derived name. -/
theorem object_attribution_witness :
    (∃ j, j ∈ ([{timestamp := 0, event := "start", objectName := "M31"},
        {timestamp := 500, event := "start", objectName := "M33"}] : List BJob).filter
          (fun (j : BJob) => decide (j.event = "start")) ∧
      j.timestamp ≤ ({timestamp := 600, event := "complete", exposure := 60, filterName := "R"} : BCapture).timestamp ∧
      (∀ k ∈ ([{timestamp := 0, event := "start", objectName := "M31"},
          {timestamp := 500, event := "start", objectName := "M33"}] : List BJob).filter
            (fun (j : BJob) => decide (j.event = "start")),
        k.timestamp ≤ ({timestamp := 600, event := "complete", exposure := 60, filterName := "R"} : BCapture).timestamp → k.timestamp ≤ j.timestamp) ∧
      objNameForCapture {timestamp := 600, event := "complete", exposure := 60, filterName := "R"}
        [{timestamp := 0, event := "start", objectName := "M31"},
         {timestamp := 500, event := "start", objectName := "M33"}] "f.analyze"
        = (if j.objectName ≠ "" then j.objectName else extractObjectName "f.analyze")) ∧
    objNameForCapture {timestamp := 100, event := "complete", exposure := 60, filterName := "R"}
      [{timestamp := 0, event := "end", objectName := "M31"}] "f.analyze"
      = extractObjectName "f.analyze" := by
  refine ⟨?_, ?_⟩
  · exact object_attribution.1
      {timestamp := 600, event := "complete", exposure := 60, filterName := "R"}
      [{timestamp := 0, event := "start", objectName := "M31"},
       {timestamp := 500, event := "start", objectName := "M33"}] "f.analyze"
      ⟨{timestamp := 0, event := "start", objectName := "M31"}, by decide, by decide⟩
  · exact object_attribution.2.2.1
      {timestamp := 100, event := "complete", exposure := 60, filterName := "R"}
      [{timestamp := 0, event := "end", objectName := "M31"}] "f.analyze" (by decide)

/-- C6 counterexample: a capture at 100 whose latest preceding job start
(at 0) carries the empty object name is NOT attributed that name: the
Python or-fallback yields the file-derived name instead, and for a file
not named ekos-<date> that fallback is the literal Unknown rather than a
name derived from the session timestamp.  The claim as stated is false. -/
theorem object_attribution_cex :
    objNameForCapture {timestamp := 100, event := "complete", exposure := 60, filterName := "R"}
      [{timestamp := 0, event := "start", objectName := ""}] "session.analyze" = "Unknown" ∧
    ([({timestamp := 0, event := "start", objectName := ""} : BJob)].filter
      (fun (j : BJob) => decide (j.event = "start")))
      = [{timestamp := 0, event := "start", objectName := ""}] ∧
    ((0 : ℚ) ≤ 100) ∧ ("Unknown" : String) ≠ "" := by
  refine ⟨?_, by decide, by decide, by decide⟩
  decide

/-! ## C2: autofocus backfill invariant -/

/-- The action of the association loop on one capture: fold the per-session
update over the sorted completed autofocus list. -/
def applyAfs (all : List BAutofocus) (afs : List BAutofocus) (c : BCapture) : BCapture :=
  afs.foldl (fun c af => if truthyQ af.bestHfr then backfillCapture all af c else c) c

/-- The timestamp-sorted completed autofocus sessions of a parsed file. -/
def sortedCompletedAfs (sd : SessionData) : List BAutofocus :=
  sortByKey BAutofocus.timestamp
    (sd.autofocusSessions.filter (fun (a : BAutofocus) => decide (a.event = "complete")))

theorem assocFold_eq_map (all : List BAutofocus) (afs : List BAutofocus) :
    ∀ caps : List BCapture, assocFold all afs caps = caps.map (applyAfs all afs) := by
  induction afs with
  | nil =>
    intro caps
    rw [assocFold]
    have hid : applyAfs all [] = fun c => c := rfl
    rw [hid, List.map_id']
  | cons af rest ih =>
    intro caps
    rw [assocFold]
    by_cases ht : truthyQ af.bestHfr
    · rw [if_pos ht, ih, List.map_map]
      have hfun : applyAfs all rest ∘ backfillCapture all af = applyAfs all (af :: rest) := by
        funext c
        simp [applyAfs, List.foldl_cons, ht]
      rw [hfun]
    · rw [if_neg ht, ih]
      have hfun : applyAfs all rest = applyAfs all (af :: rest) := by
        funext c
        simp [applyAfs, List.foldl_cons, ht]
      rw [hfun]

theorem applyAfs_preserve (all : List BAutofocus) (afs : List BAutofocus) :
    ∀ (c : BCapture) (h : ℚ), c.hfr = some h →
      (applyAfs all afs c).hfr = some h ∧ (applyAfs all afs c).fwhm = c.fwhm := by
  induction afs with
  | nil => intro c h hc; exact ⟨hc, rfl⟩
  | cons af rest ih =>
    intro c h hc
    have hbf : backfillCapture all af c = c := by
      rw [backfillCapture, if_neg]
      intro hcond
      rw [hc] at hcond
      exact Option.some_ne_none h hcond.2.2.2.2
    have hstep : applyAfs all (af :: rest) c = applyAfs all rest c := by
      by_cases ht : truthyQ af.bestHfr <;> simp [applyAfs, List.foldl_cons, ht, hbf]
    rw [hstep]
    exact ih c h hc

theorem applyAfs_cases (all : List BAutofocus) (afs : List BAutofocus) :
    ∀ c : BCapture, applyAfs all afs c = c ∨
      (c.hfr = none ∧ ∃ af ∈ afs, truthyQ af.bestHfr = true ∧
        c.event = "complete" ∧ c.filterName = af.filterName ∧
        af.timestamp < c.timestamp ∧ c.timestamp < nextAfTs all af ∧
        (applyAfs all afs c).hfr = af.bestHfr ∧
        (applyAfs all afs c).fwhm = calcFwhm af.bestHfr) := by
  induction afs with
  | nil => intro c; left; simp [applyAfs]
  | cons af rest ih =>
    intro c
    by_cases ht : truthyQ af.bestHfr
    · have hstep : applyAfs all (af :: rest) c
          = applyAfs all rest (backfillCapture all af c) := by
        simp [applyAfs, List.foldl_cons, ht]
      by_cases hcond : c.event = "complete" ∧ c.filterName = af.filterName ∧
          c.timestamp > af.timestamp ∧ c.timestamp < nextAfTs all af ∧ c.hfr = none
      · right
        obtain ⟨b, hb⟩ : ∃ b, af.bestHfr = some b := by
          cases hbest : af.bestHfr with
          | none => rw [truthyQ.eq_def, hbest] at ht; simp at ht
          | some b => exact ⟨b, rfl⟩
        have hbf : backfillCapture all af c
            = {c with hfr := af.bestHfr, fwhm := calcFwhm af.bestHfr} := by
          rw [backfillCapture, if_pos hcond]
        have hpres := applyAfs_preserve all rest
          {c with hfr := af.bestHfr, fwhm := calcFwhm af.bestHfr} b (by simp [hb])
        refine ⟨hcond.2.2.2.2, af, List.mem_cons_self _ _, ht, hcond.1, hcond.2.1,
          hcond.2.2.1, hcond.2.2.2.1, ?_, ?_⟩
        · rw [hstep, hbf, hpres.1, hb]
        · rw [hstep, hbf, hpres.2]
      · have hbf : backfillCapture all af c = c := by rw [backfillCapture, if_neg hcond]
        rw [hstep, hbf]
        rcases ih c with h | ⟨hn, af', hmem, hrest⟩
        · left; exact h
        · right
          exact ⟨hn, af', List.mem_cons_of_mem _ hmem, hrest⟩
    · have hstep : applyAfs all (af :: rest) c = applyAfs all rest c := by
        simp [applyAfs, List.foldl_cons, ht]
      rw [hstep]
      rcases ih c with h | ⟨hn, af', hmem, hrest⟩
      · left; exact h
      · right
        exact ⟨hn, af', List.mem_cons_of_mem _ hmem, hrest⟩

theorem find?_first_min (p : BAutofocus → Bool) (l : List BAutofocus)
    (hs : List.Pairwise (fun a b => a.timestamp ≤ b.timestamp) l) (n : BAutofocus)
    (h : l.find? p = some n) : ∀ m ∈ l, p m = true → n.timestamp ≤ m.timestamp := by
  induction l with
  | nil => cases h
  | cons x xs ih =>
    rcases List.pairwise_cons.mp hs with ⟨hx, hxs⟩
    by_cases hp : p x
    · rw [List.find?_cons_of_pos _ hp] at h
      injection h with h
      subst h
      intro m hm _
      rcases List.mem_cons.mp hm with hm | hm
      · rw [hm]
      · exact hx m hm
    · rw [List.find?_cons_of_neg _ hp] at h
      intro m hm hpm
      rcases List.mem_cons.mp hm with hm | hm
      · rw [hm] at hpm; exact absurd hpm hp
      · exact ih hxs h m hm hpm

theorem assoc_captures_eq (sd : SessionData)
    (h : ¬(sd.autofocusSessions = [] ∨ sd.captures = [])) :
    (associateAutofocus sd).captures
      = sd.captures.map (applyAfs (sortedCompletedAfs sd) (sortedCompletedAfs sd)) := by
  unfold associateAutofocus
  rw [if_neg h]
  exact assocFold_eq_map _ _ _

theorem mem_sortedCompletedAfs (sd : SessionData) (a : BAutofocus) :
    a ∈ sortedCompletedAfs sd ↔ a ∈ sd.autofocusSessions ∧ a.event = "complete" := by
  rw [sortedCompletedAfs, mem_sortByKey, List.mem_filter]
  simp

theorem sorted_sortedCompletedAfs (sd : SessionData) :
    List.Pairwise (fun a b : BAutofocus => a.timestamp ≤ b.timestamp)
      (sortedCompletedAfs sd) := by
  rw [sortedCompletedAfs]
  exact sorted_sortByKey _ _

theorem nextAfTs_no_successor (afs : List BAutofocus) (af : BAutofocus)
    (h : ∀ n ∈ afs, ¬(af.timestamp < n.timestamp ∧ n.filterName = af.filterName)) :
    nextAfTs afs af = af.timestamp + 7200 := by
  have hfind : afs.find? (fun (n : BAutofocus) =>
      decide (n.timestamp > af.timestamp) && decide (n.filterName = af.filterName)) = none := by
    rw [List.find?_eq_none]
    intro x hx
    simp only [Bool.and_eq_true, decide_eq_true_eq, gt_iff_lt, not_and]
    intro hlt hfil
    exact h x hx ⟨hlt, hfil⟩
  rw [nextAfTs, hfind]

theorem nextAfTs_first_successor (afs : List BAutofocus) (af : BAutofocus)
    (hs : List.Pairwise (fun a b : BAutofocus => a.timestamp ≤ b.timestamp) afs)
    (n0 : BAutofocus) (hn0 : n0 ∈ afs) (hlt : af.timestamp < n0.timestamp)
    (hfil : n0.filterName = af.filterName) :
    ∃ n, n ∈ afs ∧ af.timestamp < n.timestamp ∧ n.filterName = af.filterName ∧
      nextAfTs afs af = n.timestamp ∧
      ∀ m ∈ afs, af.timestamp < m.timestamp → m.filterName = af.filterName →
        n.timestamp ≤ m.timestamp := by
  obtain ⟨n, hfind⟩ : ∃ n, afs.find? (fun (n : BAutofocus) =>
      decide (n.timestamp > af.timestamp) && decide (n.filterName = af.filterName))
        = some n := by
    cases hc : afs.find? (fun (n : BAutofocus) =>
        decide (n.timestamp > af.timestamp) && decide (n.filterName = af.filterName)) with
    | none =>
      exfalso
      rw [List.find?_eq_none] at hc
      have := hc n0 hn0
      simp only [Bool.and_eq_true, decide_eq_true_eq, gt_iff_lt] at this
      exact this ⟨hlt, hfil⟩
    | some n => exact ⟨n, rfl⟩
  have hnmem := List.mem_of_find?_eq_some hfind
  have hnp := List.find?_some hfind
  simp only [Bool.and_eq_true, decide_eq_true_eq, gt_iff_lt] at hnp
  refine ⟨n, hnmem, hnp.1, hnp.2, ?_, ?_⟩
  · rw [nextAfTs, hfind]
  · intro m hm hmlt hmfil
    exact find?_first_min _ _ hs n hfind m hm
      (by simp only [Bool.and_eq_true, decide_eq_true_eq, gt_iff_lt]; exact ⟨hmlt, hmfil⟩)

/-- Concrete session for exercising the autofocus backfill: one completed
capture without hfr between two completed autofocus runs of its filter. -/
def c2af1 : BAutofocus :=
  { timestamp := 100, event := "complete", filterName := "R", temperature := 5,
    bestHfr := some 3 }

def c2af2 : BAutofocus :=
  { timestamp := 200, event := "complete", filterName := "R", temperature := 5,
    bestHfr := some 4 }

def c2sd : SessionData :=
  { filepath := "a",
    captures := [{ timestamp := 150, event := "complete", exposure := 60,
                   filterName := "R" }],
    autofocusSessions := [c2af1, c2af2] }

/-- C2: the association step preserves the capture count; a capture whose
hfr is non-null beforehand keeps that hfr and its fwhm unchanged; every
capture is either left entirely unchanged or had hfr null beforehand and
receives the best_hfr (and the derived fwhm) of a completed same-filter
autofocus session whose timestamp lies strictly below the capture's, with
the capture's timestamp strictly below that autofocus's window end
nextAfTs; and nextAfTs is the timestamp of the earliest strictly-later
same-filter completed autofocus when one exists, and the autofocus
timestamp plus 7200 seconds otherwise. -/
theorem hfr_backfill_invariant (sd : SessionData) :
    (associateAutofocus sd).captures.length = sd.captures.length ∧
    (∀ a : BAutofocus, a ∈ sortedCompletedAfs sd ↔
      a ∈ sd.autofocusSessions ∧ a.event = "complete") ∧
    (∀ (i : ℕ) (h1 : i < sd.captures.length)
        (h2 : i < (associateAutofocus sd).captures.length),
      (∀ hv : ℚ, (sd.captures.get ⟨i, h1⟩).hfr = some hv →
        ((associateAutofocus sd).captures.get ⟨i, h2⟩).hfr = some hv ∧
        ((associateAutofocus sd).captures.get ⟨i, h2⟩).fwhm
          = (sd.captures.get ⟨i, h1⟩).fwhm) ∧
      ((associateAutofocus sd).captures.get ⟨i, h2⟩ = sd.captures.get ⟨i, h1⟩ ∨
        ((sd.captures.get ⟨i, h1⟩).hfr = none ∧
          ∃ af, af ∈ sd.autofocusSessions ∧ af.event = "complete" ∧
            truthyQ af.bestHfr = true ∧
            (sd.captures.get ⟨i, h1⟩).event = "complete" ∧
            (sd.captures.get ⟨i, h1⟩).filterName = af.filterName ∧
            af.timestamp < (sd.captures.get ⟨i, h1⟩).timestamp ∧
            (sd.captures.get ⟨i, h1⟩).timestamp < nextAfTs (sortedCompletedAfs sd) af ∧
            ((associateAutofocus sd).captures.get ⟨i, h2⟩).hfr = af.bestHfr ∧
            ((associateAutofocus sd).captures.get ⟨i, h2⟩).fwhm
              = calcFwhm af.bestHfr))) ∧
    (∀ af : BAutofocus,
      ((∀ n ∈ sortedCompletedAfs sd,
          ¬(af.timestamp < n.timestamp ∧ n.filterName = af.filterName)) →
        nextAfTs (sortedCompletedAfs sd) af = af.timestamp + 7200) ∧
      (∀ n0 ∈ sortedCompletedAfs sd, af.timestamp < n0.timestamp →
        n0.filterName = af.filterName →
        ∃ n, n ∈ sortedCompletedAfs sd ∧ af.timestamp < n.timestamp ∧
          n.filterName = af.filterName ∧
          nextAfTs (sortedCompletedAfs sd) af = n.timestamp ∧
          ∀ m ∈ sortedCompletedAfs sd, af.timestamp < m.timestamp →
            m.filterName = af.filterName → n.timestamp ≤ m.timestamp)) := by
  have hnext : ∀ af : BAutofocus,
      ((∀ n ∈ sortedCompletedAfs sd,
          ¬(af.timestamp < n.timestamp ∧ n.filterName = af.filterName)) →
        nextAfTs (sortedCompletedAfs sd) af = af.timestamp + 7200) ∧
      (∀ n0 ∈ sortedCompletedAfs sd, af.timestamp < n0.timestamp →
        n0.filterName = af.filterName →
        ∃ n, n ∈ sortedCompletedAfs sd ∧ af.timestamp < n.timestamp ∧
          n.filterName = af.filterName ∧
          nextAfTs (sortedCompletedAfs sd) af = n.timestamp ∧
          ∀ m ∈ sortedCompletedAfs sd, af.timestamp < m.timestamp →
            m.filterName = af.filterName → n.timestamp ≤ m.timestamp) := by
    intro af
    constructor
    · exact nextAfTs_no_successor _ af
    · intro n0 hn0 hlt hfil
      exact nextAfTs_first_successor _ af (sorted_sortedCompletedAfs sd) n0 hn0 hlt hfil
  by_cases hguard : sd.autofocusSessions = [] ∨ sd.captures = []
  · have hid : associateAutofocus sd = sd := by rw [associateAutofocus, if_pos hguard]
    refine ⟨by rw [hid], mem_sortedCompletedAfs sd, ?_, hnext⟩
    intro i h1 h2
    have hcap : (associateAutofocus sd).captures = sd.captures := by rw [hid]
    have hgeteq : (associateAutofocus sd).captures.get ⟨i, h2⟩
        = sd.captures.get ⟨i, h1⟩ := by
      rcases List.get_of_eq hcap ⟨i, h2⟩ with h
      exact h
    refine ⟨?_, Or.inl hgeteq⟩
    intro hv hhv
    rw [hgeteq]
    exact ⟨hhv, rfl⟩
  · have hmap := assoc_captures_eq sd hguard
    refine ⟨by rw [hmap, List.length_map], mem_sortedCompletedAfs sd, ?_, hnext⟩
    intro i h1 h2
    have hget : (associateAutofocus sd).captures.get ⟨i, h2⟩
        = applyAfs (sortedCompletedAfs sd) (sortedCompletedAfs sd)
            (sd.captures.get ⟨i, h1⟩) := by
      simp only [List.get_eq_getElem, hmap, List.getElem_map]
    refine ⟨?_, ?_⟩
    · intro hv hhv
      have hp := applyAfs_preserve (sortedCompletedAfs sd) (sortedCompletedAfs sd)
        (sd.captures.get ⟨i, h1⟩) hv hhv
      rw [hget]
      exact ⟨hp.1, hp.2⟩
    · rcases applyAfs_cases (sortedCompletedAfs sd) (sortedCompletedAfs sd)
          (sd.captures.get ⟨i, h1⟩) with hsame |
          ⟨hn, af, hafmem, ht, hev, hfil, hlt1, hlt2, hh, hf⟩
      · left
        rw [hget, hsame]
      · right
        obtain ⟨hafses, hafev⟩ := (mem_sortedCompletedAfs sd af).mp hafmem
        exact ⟨hn, af, hafses, hafev, ht, hev, hfil, hlt1, hlt2,
          by rw [hget]; exact hh, by rw [hget]; exact hf⟩

/-- Witness: on the concrete two-autofocus session, the association keeps
the capture count, the autofocus at t=200 has no later same-filter
successor so its window ends at 200+7200, and the autofocus at t=100 has
an earliest strictly-later same-filter successor. -/
theorem hfr_backfill_invariant_witness :
    (associateAutofocus c2sd).captures.length = c2sd.captures.length ∧
    nextAfTs (sortedCompletedAfs c2sd) c2af2 = c2af2.timestamp + 7200 ∧
    ∃ n, n ∈ sortedCompletedAfs c2sd ∧ c2af1.timestamp < n.timestamp ∧
      n.filterName = c2af1.filterName ∧
      nextAfTs (sortedCompletedAfs c2sd) c2af1 = n.timestamp ∧
      ∀ m ∈ sortedCompletedAfs c2sd, c2af1.timestamp < m.timestamp →
        m.filterName = c2af1.filterName → n.timestamp ≤ m.timestamp := by
  have h := hfr_backfill_invariant c2sd
  refine ⟨h.1, ?_, ?_⟩
  · exact (h.2.2.2 c2af2).1 (by decide)
  · exact (h.2.2.2 c2af1).2 c2af2 (by decide) (by decide) (by decide)

set_option maxHeartbeats 2000000 in
theorem decodeLine_addCapture (l : String) (c : BCapture)
    (h : decodeLine l = LineDelta.addCapture c) : c.fwhm = calcFwhm c.hfr := by
  unfold decodeLine at h
  dsimp only at h
  generalize pystrip l = line at h
  generalize splitCh ',' line = parts at h
  by_cases hA : line = "" ∨ line.data.head? = some '#'
  · rw [if_pos hA] at h
    by_cases hK : (("#KStars version".data).isPrefixOf line.data) = true
    · rw [if_pos hK] at h
      cases hv : findVersion line <;> rw [hv] at h <;> cases h
    · rw [if_neg hK] at h
      cases h
  · rw [if_neg hA] at h
    by_cases h2 : parts.length < 2
    · rw [if_pos h2] at h
      cases h
    · rw [if_neg h2] at h
      by_cases hAST : parts.getD 0 "" = "AnalyzeStartTime"
      · rw [if_pos hAST] at h
        cases h
      · rw [if_neg hAST] at h
        cases hts : pyFloat (parts.getD 1 "") with
        | none =>
          rw [hts] at h
          cases h
        | some ts =>
          rw [hts] at h
          dsimp only at h
          by_cases e1 : parts.getD 0 "" = "Temperature"
          · rw [if_pos e1] at h
            repeat' split at h
            all_goals cases h
          · rw [if_neg e1] at h
            by_cases e2 : parts.getD 0 "" = "MountState"
            · rw [if_pos e2] at h
              repeat' split at h
              all_goals cases h
            · rw [if_neg e2] at h
              by_cases e3 : parts.getD 0 "" = "MountCoords"
              · rw [if_pos e3] at h
                repeat' split at h
                all_goals cases h
              · rw [if_neg e3] at h
                by_cases e4 : parts.getD 0 "" = "CaptureStarting"
                · rw [if_pos e4] at h
                  by_cases hl4 : parts.length ≥ 4
                  · rw [if_pos hl4] at h
                    cases hexpo : pyFloat (parts.getD 2 "") with
                    | none =>
                      rw [hexpo] at h
                      cases h
                    | some expo =>
                      rw [hexpo] at h
                      dsimp only at h
                      cases h
                      rfl
                  · rw [if_neg hl4] at h
                    cases h
                · rw [if_neg e4] at h
                  by_cases e5 : parts.getD 0 "" = "CaptureComplete"
                  · rw [if_pos e5] at h
                    by_cases hl6 : parts.length ≥ 6
                    · rw [if_pos hl6] at h
                      cases hexpo : pyFloat (parts.getD 2 "") with
                      | none =>
                        rw [hexpo] at h
                        cases h
                      | some expo =>
                        rw [hexpo] at h
                        dsimp only at h
                        cases h
                        dsimp only
                        cases hh : pyFloat (parts.getD 4 "") with
                        | none =>
                          simp [truthyQ, calcFwhm]
                        | some hv =>
                          dsimp only
                          by_cases hpos : hv > 0
                          · rw [if_pos hpos]
                            simp [truthyQ, ne_of_gt hpos]
                          · rw [if_neg hpos]
                            simp [truthyQ, calcFwhm]
                    · rw [if_neg hl6] at h
                      cases h
                  · rw [if_neg e5] at h
                    by_cases e6 : parts.getD 0 "" = "CaptureAborted"
                    · rw [if_pos e6] at h
                      repeat' split at h
                      all_goals cases h
                    · rw [if_neg e6] at h
                      by_cases e7 : parts.getD 0 "" = "AutofocusStarting"
                      · rw [if_pos e7] at h
                        repeat' split at h
                        all_goals cases h
                      · rw [if_neg e7] at h
                        by_cases e8 : parts.getD 0 "" = "AutofocusComplete"
                        · rw [if_pos e8] at h
                          repeat' split at h
                          all_goals cases h
                        · rw [if_neg e8] at h
                          by_cases e9 : parts.getD 0 "" = "GuideStats"
                          · rw [if_pos e9] at h
                            repeat' split at h
                            all_goals cases h
                          · rw [if_neg e9] at h
                            by_cases e10 : parts.getD 0 "" = "GuideState"
                            · rw [if_pos e10] at h
                              repeat' split at h
                              all_goals cases h
                            · rw [if_neg e10] at h
                              by_cases e11 : parts.getD 0 "" = "AlignState"
                              · rw [if_pos e11] at h
                                repeat' split at h
                                all_goals cases h
                              · rw [if_neg e11] at h
                                by_cases e12 : parts.getD 0 "" = "SchedulerJobStart"
                                · rw [if_pos e12] at h
                                  repeat' split at h
                                  all_goals cases h
                                · rw [if_neg e12] at h
                                  by_cases e13 : parts.getD 0 "" = "SchedulerJobEnd"
                                  · rw [if_pos e13] at h
                                    repeat' split at h
                                    all_goals cases h
                                  · rw [if_neg e13] at h
                                    cases h

theorem applyDelta_captures (sd : SessionData) (d : LineDelta) (sd1 : SessionData)
    (h : applyDelta sd d = some sd1) :
    sd1.captures = sd.captures ∨
      ∃ x, d = LineDelta.addCapture x ∧ sd1.captures = sd.captures ++ [x] := by
  cases d with
  | abort => cases h
  | addCapture x =>
    simp only [applyDelta, Option.some.injEq] at h
    exact Or.inr ⟨x, rfl, by rw [← h]⟩
  | nothing =>
    simp only [applyDelta, Option.some.injEq] at h
    exact Or.inl (by rw [← h])
  | setKstars v =>
    simp only [applyDelta, Option.some.injEq] at h
    exact Or.inl (by rw [← h])
  | setSessionStart x =>
    simp only [applyDelta, Option.some.injEq] at h
    exact Or.inl (by rw [← h])
  | addAutofocus x =>
    simp only [applyDelta, Option.some.injEq] at h
    exact Or.inl (by rw [← h])
  | addTemperature x =>
    simp only [applyDelta, Option.some.injEq] at h
    exact Or.inl (by rw [← h])
  | addMountCoords x =>
    simp only [applyDelta, Option.some.injEq] at h
    exact Or.inl (by rw [← h])
  | addMountState x =>
    simp only [applyDelta, Option.some.injEq] at h
    exact Or.inl (by rw [← h])
  | addGuideStat x =>
    simp only [applyDelta, Option.some.injEq] at h
    exact Or.inl (by rw [← h])
  | addGuideState x =>
    simp only [applyDelta, Option.some.injEq] at h
    exact Or.inl (by rw [← h])
  | addAlignState x =>
    simp only [applyDelta, Option.some.injEq] at h
    exact Or.inl (by rw [← h])
  | addJob x =>
    simp only [applyDelta, Option.some.injEq] at h
    exact Or.inl (by rw [← h])
  | addIssue x =>
    simp only [applyDelta, Option.some.injEq] at h
    exact Or.inl (by rw [← h])

theorem parseLines_fwhm (ls : List String) (sd : SessionData)
    (hsd : ∀ c ∈ sd.captures, c.fwhm = calcFwhm c.hfr) :
    ∀ c ∈ (parseLines sd ls).captures, c.fwhm = calcFwhm c.hfr := by
  induction ls generalizing sd with
  | nil => exact hsd
  | cons l ls ih =>
    rw [parseLines]
    cases hstep : parseStep sd l with
    | none => exact hsd
    | some sd1 =>
      apply ih
      rw [parseStep] at hstep
      rcases applyDelta_captures sd (decodeLine l) sd1 hstep with hsame | ⟨x, hx, happ⟩
      · rw [hsame]
        exact hsd
      · intro c hc
        rw [happ] at hc
        rcases List.mem_append.mp hc with hc | hc
        · exact hsd c hc
        · rw [List.mem_singleton.mp hc]
          exact decodeLine_addCapture l x hx

theorem associate_fwhm (sd : SessionData)
    (hsd : ∀ c ∈ sd.captures, c.fwhm = calcFwhm c.hfr) :
    ∀ c ∈ (associateAutofocus sd).captures, c.fwhm = calcFwhm c.hfr := by
  by_cases hguard : sd.autofocusSessions = [] ∨ sd.captures = []
  · rw [associateAutofocus, if_pos hguard]
    exact hsd
  · rw [assoc_captures_eq sd hguard]
    intro c hc
    obtain ⟨c0, hc0, hF⟩ := List.mem_map.mp hc
    rcases applyAfs_cases (sortedCompletedAfs sd) (sortedCompletedAfs sd) c0 with hsame |
        ⟨hn, af, hafmem, ht, hev, hfil, hlt1, hlt2, hh, hf⟩
    · rw [← hF, hsame]
      exact hsd c0 hc0
    · rw [← hF, hf, hh]

/-- C10: every capture of a batch-parsed session after autofocus
association has fwhm exactly hfr times the 1.2 conversion factor whenever
its hfr is present and positive (parsed directly or backfilled), fwhm null
when hfr is null, and fwhm null when hfr is present but non-positive. -/
theorem capture_fwhm_consistency (fp : String) (lines : List String) :
    ∀ c ∈ (associateAutofocus (parseAnalyzeFile fp lines)).captures,
      (∀ hv : ℚ, c.hfr = some hv → 0 < hv → c.fwhm = some (hv * (6 / 5))) ∧
      (c.hfr = none → c.fwhm = none) ∧
      (∀ hv : ℚ, c.hfr = some hv → hv ≤ 0 → c.fwhm = none) := by
  intro c hc
  have hinv := associate_fwhm (parseAnalyzeFile fp lines)
    (parseLines_fwhm lines {filepath := fp} (by intro c hc; cases hc)) c hc
  refine ⟨?_, ?_, ?_⟩
  · intro hv hh hpos
    rw [hinv, hh]
    simp [calcFwhm, not_le.mpr hpos]
  · intro hh
    rw [hinv, hh]
    rfl
  · intro hv hh hle
    rw [hinv, hh]
    simp [calcFwhm, hle]

/-- Concrete single-line file for the fwhm witness. -/
def c10lines : List String := ["CaptureComplete,100,60,R,2.5,f.fits"]

def c10cap : BCapture :=
  { timestamp := 100, event := "complete", exposure := 60, filterName := "R",
    hfr := some (5 / 2), fwhm := some 3, stars := none, filepath := some "f.fits" }

/-- Witness: parsing a CaptureComplete line with hfr 2.5 yields the single
capture with hfr 5/2 and, by the claim theorem, fwhm (5/2) times (6/5). -/
theorem capture_fwhm_consistency_witness :
    (associateAutofocus (parseAnalyzeFile "a" c10lines)).captures = [c10cap] ∧
    c10cap.hfr = some (5 / 2) ∧ (0 : ℚ) < 5 / 2 ∧
    c10cap.fwhm = some ((5 / 2) * (6 / 5)) := by
  have hcaps : (associateAutofocus (parseAnalyzeFile "a" c10lines)).captures = [c10cap] := by
    norm_num +decide [c10lines, c10cap, parseAnalyzeFile, parseLines, parseStep, applyDelta,
      decodeLine, associateAutofocus, pystrip, pystripL, isPySpace, splitCh, splitPAux,
      pyFloat, parseFloatCore, parseExpPart, natOfDigits, digitVal, truthyQ, calcFwhm,
      findVersion, findVersionAux, containsSub, containsSubL,
      BCapture.mk.injEq, List.cons.injEq]
  have hmem : c10cap ∈ (associateAutofocus (parseAnalyzeFile "a" c10lines)).captures := by
    rw [hcaps]
    exact List.mem_singleton_self _
  refine ⟨hcaps, rfl, by norm_num, ?_⟩
  exact (capture_fwhm_consistency "a" c10lines c10cap hmem).1 (5 / 2) rfl (by norm_num)
